import Mathlib

/-!
Verification development for the `chk` schema validator.

The repository holds two revisions of the same module:
* `src/unnamed/part_000` — the later revision (entry point `chk`, worker `_chk`,
  `checkobject`, `checkArray`, `checkScalar`, `callValidator`, `override`,
  `coerceType`, `fail`, `match`, `clone`).  It is embedded in the root
  namespace `Chk` below.
* `src/chk.js` — the earlier revision.  Where a claim depends on behaviour
  only present there (the `untrusted` guard; the unwrapped validator call),
  its `checkScalar`/`fail` are embedded in namespace `Chk.ChkJs`.

JavaScript values are modelled by the inductive `JsVal`; schemas and option
records are ordinary `JsVal.obj` values, as in the source.  Mutation of the
candidate value is modelled by explicit state passing (every engine function
returns the possibly-updated value, or an error value).  Validator functions
are defunctionalised into the closed syntax `Fn` (return a fixed value, or
throw), evaluated by `Fn.eval`; a thrown exception is an explicit `FnRes.thrw`
result.  The external `tipe` collaborator (type classifier) is modelled from
the spec's collaborator contract in §6.  Reference cycles in object graphs are
not representable in an inductive value type, so `clone` (a JSON round trip)
is total here; the engine's clone-failure branch is still reachable, exactly
as in the source, through error-shaped defaults, which `clone` passes through
unchanged.
-/

namespace Chk

mutual

/-- JavaScript runtime values as classified by the external `tipe`
collaborator: undefined, null, boolean, number, string, array, object,
function and error.  Numbers are rationals (the engine only manufactures
numbers by parsing decimal literals).  Error values carry an optional
`code` property and a `message`. -/
inductive JsVal : Type where
  | undef : JsVal
  | null : JsVal
  | bool : Bool → JsVal
  | num : ℚ → JsVal
  | str : String → JsVal
  | arr : List JsVal → JsVal
  | obj : List (String × JsVal) → JsVal
  | func : Fn → JsVal
  | err : Option String → String → JsVal

/-- User-supplied validator functions, defunctionalised into a closed syntax:
a validator either returns a fixed value or throws an error carrying an
optional code and a message. -/
inductive Fn : Type where
  | ret : JsVal → Fn
  | thrw : Option String → String → Fn

end

mutual

/-- Structural boolean equality on values. -/
def beqV : JsVal → JsVal → Bool
  | .undef, .undef => true
  | .null, .null => true
  | .bool a, .bool b => a == b
  | .num a, .num b => a == b
  | .str a, .str b => a == b
  | .arr a, .arr b => beqVL a b
  | .obj a, .obj b => beqVF a b
  | .func a, .func b => beqFn a b
  | .err a m, .err b n => a == b && m == n
  | _, _ => false
termination_by structural a => a

/-- Structural boolean equality on element lists. -/
def beqVL : List JsVal → List JsVal → Bool
  | [], [] => true
  | a :: as, b :: bs => beqV a b && beqVL as bs
  | _, _ => false
termination_by structural a => a

/-- Structural boolean equality on field lists. -/
def beqVF : List (String × JsVal) → List (String × JsVal) → Bool
  | [], [] => true
  | (k, a) :: as, (l, b) :: bs => k == l && beqV a b && beqVF as bs
  | _, _ => false
termination_by structural a => a

/-- Structural boolean equality on validators. -/
def beqFn : Fn → Fn → Bool
  | .ret a, .ret b => beqV a b
  | .thrw c m, .thrw d n => c == d && m == n
  | _, _ => false
termination_by structural a => a

end

mutual

theorem beqV_correct : (a b : JsVal) → beqV a b = true → a = b := fun a b h => by
  cases a <;> cases b <;>
  first
    | rfl
    | (simp only [beqV] at h
       exact Bool.noConfusion h)
    | (simp only [beqV, Bool.and_eq_true, beq_iff_eq] at h
       first
         | rw [h]
         | rw [h.1, h.2])
    | exact congrArg JsVal.arr (beqVL_correct _ _ (by simpa [beqV] using h))
    | exact congrArg JsVal.obj (beqVF_correct _ _ (by simpa [beqV] using h))
    | exact congrArg JsVal.func (beqFn_correct _ _ (by simpa [beqV] using h))

theorem beqVL_correct : (a b : List JsVal) → beqVL a b = true → a = b
  | [], [], _ => rfl
  | [], _ :: _, h => by simp [beqVL] at h
  | _ :: _, [], h => by simp [beqVL] at h
  | a :: as, b :: bs, h => by
    simp only [beqVL, Bool.and_eq_true] at h
    rw [beqV_correct a b h.1, beqVL_correct as bs h.2]

theorem beqVF_correct : (a b : List (String × JsVal)) → beqVF a b = true → a = b
  | [], [], _ => rfl
  | [], _ :: _, h => by simp [beqVF] at h
  | _ :: _, [], h => by simp [beqVF] at h
  | (k, a) :: as, (l, b) :: bs, h => by
    simp only [beqVF, Bool.and_eq_true, beq_iff_eq] at h
    rw [h.1.1, beqV_correct a b h.1.2, beqVF_correct as bs h.2]

theorem beqFn_correct : (a b : Fn) → beqFn a b = true → a = b := fun a b h => by
  cases a <;> cases b <;>
  first
    | (simp only [beqFn] at h
       exact Bool.noConfusion h)
    | (simp only [beqFn, Bool.and_eq_true, beq_iff_eq] at h
       rw [h.1, h.2])
    | exact congrArg Fn.ret (beqV_correct _ _ (by simpa [beqFn] using h))

end

mutual

theorem beqV_rfl : (a : JsVal) → beqV a a = true
  | .undef => rfl
  | .null => rfl
  | .bool a => by simp [beqV]
  | .num a => by simp [beqV]
  | .str a => by simp [beqV]
  | .arr a => by simpa [beqV] using beqVL_rfl a
  | .obj a => by simpa [beqV] using beqVF_rfl a
  | .func a => by simpa [beqV] using beqFn_rfl a
  | .err a m => by simp [beqV]

theorem beqVL_rfl : (a : List JsVal) → beqVL a a = true
  | [] => rfl
  | a :: as => by simp [beqVL, beqV_rfl a, beqVL_rfl as]

theorem beqVF_rfl : (a : List (String × JsVal)) → beqVF a a = true
  | [] => rfl
  | (k, a) :: as => by simp [beqVF, beqV_rfl a, beqVF_rfl as]

theorem beqFn_rfl : (a : Fn) → beqFn a a = true
  | .ret a => by simpa [beqFn] using beqV_rfl a
  | .thrw c m => by simp [beqFn]

end

instance : DecidableEq JsVal := fun a b =>
  if h : beqV a b = true then .isTrue (beqV_correct a b h)
  else .isFalse fun he => h (he ▸ beqV_rfl a)

instance : DecidableEq Fn := fun a b =>
  if h : beqFn a b = true then .isTrue (beqFn_correct a b h)
  else .isFalse fun he => h (he ▸ beqFn_rfl a)

/-- Result of invoking a validator: a normal return or a thrown exception. -/
inductive FnRes : Type where
  | ret : JsVal → FnRes
  | thrw : Option String → String → FnRes

/-- Evaluate a validator.  It receives the receiver (`this`), the value under
check, and the options record, mirroring `fn.call(options.rootValue, value,
options)` in the source; the closed syntax ignores the arguments. -/
def Fn.eval : Fn → JsVal → JsVal → JsVal → FnRes
  | .ret v, _, _, _ => .ret v
  | .thrw c m, _, _, _ => .thrw c m

/-- The external type classifier (`tipe(value)`): value to semantic tag. -/
def tipe : JsVal → String
  | .undef => "undefined"
  | .null => "null"
  | .bool _ => "boolean"
  | .num _ => "number"
  | .str _ => "string"
  | .arr _ => "array"
  | .obj _ => "object"
  | .func _ => "function"
  | .err _ _ => "error"

@[simp] theorem tipe_undef : tipe .undef = "undefined" := rfl

@[simp] theorem tipe_null : tipe .null = "null" := rfl

@[simp] theorem tipe_bool (b : Bool) : tipe (.bool b) = "boolean" := rfl

@[simp] theorem tipe_num (q : ℚ) : tipe (.num q) = "number" := rfl

@[simp] theorem tipe_str (s : String) : tipe (.str s) = "string" := rfl

@[simp] theorem tipe_arr (l : List JsVal) : tipe (.arr l) = "array" := rfl

@[simp] theorem tipe_obj (l : List (String × JsVal)) : tipe (.obj l) = "object" := rfl

@[simp] theorem tipe_func (f : Fn) : tipe (.func f) = "function" := rfl

@[simp] theorem tipe_err (c : Option String) (m : String) : tipe (.err c m) = "error" := rfl

/-- JavaScript truthiness, as used by the source's `if` conditions
(`schema.required && …`, `if (err)`, `else if (i)`, …). -/
def jsTruthy : JsVal → Bool
  | .undef => false
  | .null => false
  | .bool b => b
  | .num q => decide (q ≠ 0)
  | .str s => decide (s ≠ "")
  | .arr _ => true
  | .obj _ => true
  | .func _ => true
  | .err _ _ => true

/-- Property lookup on an association list: `l[key]`, yielding `undefined`
when the key is absent (JavaScript property-access semantics). -/
def lookupL : List (String × JsVal) → String → JsVal
  | [], _ => .undef
  | (k, v) :: rest, key => if k = key then v else lookupL rest key

/-- Property assignment on an association list: replace the first binding of
`key`, or append a new one (JavaScript property-assignment semantics). -/
def setL : List (String × JsVal) → String → JsVal → List (String × JsVal)
  | [], key, v => [(key, v)]
  | (k, w) :: rest, key, v =>
    if k = key then (k, v) :: rest else (k, w) :: setL rest key v

/-- `o[k]` for a general value: property lookup, `undefined` off objects. -/
def getProp (o : JsVal) (k : String) : JsVal :=
  match o with
  | .obj l => lookupL l k
  | _ => (.undef)

/-- `o[k] = v` for a general value: no-op off objects. -/
def setProp (o : JsVal) (k : String) (v : JsVal) : JsVal :=
  match o with
  | .obj l => .obj (setL l k v)
  | _ => o

/-- The keys of an object value, in insertion order. -/
def objKeys : JsVal → List String
  | .obj l => l.map Prod.fst
  | _ => []

/-- Split a character list at pipe characters (the separator of the
source's `strEnum.split('|')`). -/
def splitPipeAux : List Char → List Char → List String
  | [], acc => [String.mk acc.reverse]
  | c :: rest, acc =>
    if c = '|' then String.mk acc.reverse :: splitPipeAux rest []
    else splitPipeAux rest (c :: acc)

/-- `s.split('|')` for the pipe-delimited enums of the source. -/
def splitPipe (s : String) : List String :=
  splitPipeAux s.data []

/-- `match(str, strEnum)` from the source: `strEnum` must be a string; split
it on pipes and test strict equality of `str` against each member. -/
def jsMatch (v : JsVal) (strEnum : JsVal) : Bool :=
  match strEnum with
  | .str e =>
    (splitPipe e).any fun m =>
      match v with
      | .str s => decide (s = m)
      | _ => false
  | _ => false

/-- Rendering of a number by string coercion.  Exact for integers (the only
numbers surfaced in the error messages the claims inspect); non-integral
rationals use the `ℚ` printer as an approximation of JavaScript's float
printing. -/
def numToString (q : ℚ) : String :=
  if q.den = 1 then toString q.num else toString q

mutual

/-- JavaScript string coercion `String(v)`, as used when the source
concatenates a value into an error message. -/
def jsToString : JsVal → String
  | .undef => "undefined"
  | .null => "null"
  | .bool b => if b then "true" else "false"
  | .num q => numToString q
  | .str s => s
  | .arr l => jsToStringList l
  | .obj _ => "[object Object]"
  | .func _ => "function"
  | .err _ m => "Error: " ++ m

/-- Array-to-string join with commas (`Array.prototype.toString`);
null and undefined elements render empty. -/
def jsToStringList : List JsVal → String
  | [] => ""
  | [v] => jsToStringElem v
  | v :: rest => jsToStringElem v ++ "," ++ jsToStringList rest

/-- One element of an array join. -/
def jsToStringElem : JsVal → String
  | .undef => ""
  | .null => ""
  | v => jsToString v

end

/-- The fixed code-to-label table of the error helper. -/
def codeMap : String → String
  | "missingParam" => "Missing Required Parameter"
  | "badParam" => "Unrecognized Parameter"
  | "badType" => "Invalid Type"
  | "badValue" => "Invalid Value"
  | "badSchema" => "Invalid Schema"
  | _ => "undefined"

/-- Error helper `fail(code, msg, args)` of `part_000`: an error-shaped `msg`
is reused (its own `code` kept, defaulting to `code`); otherwise the message
is the code's label, a colon, and the string coercion of `msg`.  The `info`
snapshot is not modelled (no claim consults it). -/
def fail (code : String) (msg : JsVal) : JsVal :=
  match msg with
  | .err c m => .err (some (c.getD code)) m
  | _ => .err (some code) (codeMap code ++ ": " ++ jsToString msg)

/-- Numeric value of a list of decimal digit characters. -/
def digitsVal (cs : List Char) : ℕ :=
  cs.foldl (fun a c => a * 10 + (c.toNat - 48)) 0

/-- A JavaScript whitespace character (the forms relevant to parsing). -/
def isWs (c : Char) : Bool :=
  c == ' ' || c == '\t' || c == '\n' || c == '\r'

/-- `parseInt(s)` (radix 10, the engine's call): skip whitespace, take an
optional sign and a non-empty run of decimal digits; `none` models `NaN`.
Hexadecimal prefixes and other radices are outside the engine's input space
and are not modelled. -/
def parseIntJS (s : String) : Option ℤ :=
  let cs := s.data.dropWhile isWs
  let signed : ℤ × List Char :=
    match cs with
    | '-' :: t => (-1, t)
    | '+' :: t => (1, t)
    | _ => (1, cs)
  let ds := signed.2.takeWhile Char.isDigit
  if ds.isEmpty then none else some (signed.1 * (digitsVal ds : ℤ))

/-- `parseFloat(s)`: skip whitespace, optional sign, decimal digits with an
optional fraction and an optional exponent; the parse succeeds when at least
one digit is present before the exponent.  `none` models `NaN`. -/
def parseFloatJS (s : String) : Option ℚ :=
  let cs := s.data.dropWhile isWs
  let signed : ℚ × List Char :=
    match cs with
    | '-' :: t => (-1, t)
    | '+' :: t => (1, t)
    | _ => (1, cs)
  let intDs := signed.2.takeWhile Char.isDigit
  let rest := signed.2.dropWhile Char.isDigit
  let fracPart : List Char × List Char :=
    match rest with
    | '.' :: t => (t.takeWhile Char.isDigit, t.dropWhile Char.isDigit)
    | _ => ([], rest)
  if intDs.isEmpty ∧ fracPart.1.isEmpty then none
  else
    let mant : ℚ :=
      (digitsVal intDs : ℚ) + (digitsVal fracPart.1 : ℚ) / ((10 : ℚ) ^ fracPart.1.length)
    let expo : ℤ :=
      match fracPart.2 with
      | 'e' :: t => expDigits t
      | 'E' :: t => expDigits t
      | _ => 0
    some (signed.1 * mant * (10 : ℚ) ^ expo)
where
  /-- Signed exponent digits; an empty digit run contributes exponent 0
  (JavaScript stops parsing there). -/
  expDigits (t : List Char) : ℤ :=
    let signed : ℤ × List Char :=
      match t with
      | '-' :: u => (-1, u)
      | '+' :: u => (1, u)
      | _ => (1, t)
    let ds := signed.2.takeWhile Char.isDigit
    if ds.isEmpty then 0 else signed.1 * (digitsVal ds : ℤ)

/-- Modelled from the spec: the external classifier's truthiness rule
(`tipe.truthy`), used by the boolean branch of coercion (§4.5, §6).  `tipe`
is an external collaborator whose source is not in the repository; the spec
fixes only that `"true"` coerces to `true`.  Booleans are themselves, positive
numbers are truthy, and the strings `"true"`, `"yes"` and `"1"` are truthy. -/
def tipeTruthy : JsVal → Bool
  | .bool b => b
  | .num q => decide (0 < q)
  | .str s => s == "true" || s == "yes" || s == "1"
  | _ => false

/-- The number/boolean coercion switch, shared verbatim by
`coerceType` (`part_000`) and `coerce` (`chk.js`): parse the string as float
and as integer; the float wins when its magnitude is strictly greater
(comparisons against `NaN` are false), else a truthy (nonzero) integer wins,
else the string stays, except that the literal `"0"` becomes numeric zero
(`zeroFix`). -/
def zeroFix : JsVal → JsVal
  | .str s0 => if s0 = "0" then .num 0 else .str s0
  | v => v

/-- See module doc: `coerceSwitch` continues below; `zeroFix` is the
trailing `if (value === '0') value = 0` normalization of the source. -/
def coerceSwitch (styp : JsVal) (s : String) : JsVal :=
  match styp with
  | .str "number" =>
    zeroFix
      (match parseFloatJS s, parseIntJS s with
       | some fq, some iq =>
         if |fq| > |(iq : ℚ)| then .num fq
         else if iq ≠ 0 then .num (iq : ℚ)
         else .str s
       | some _, none => .str s
       | none, some iq => if iq ≠ 0 then .num (iq : ℚ) else .str s
       | none, none => .str s)
  | .str "boolean" => .bool (tipeTruthy (.str s))
  | _ => .str s

/-- `coerceType(value, schema, options)` of `part_000`: only string values,
only when `doNotCoerce` is not set. -/
def coerceType (value schema options : JsVal) : JsVal :=
  if jsTruthy (getProp options "doNotCoerce") then value
  else
    match value with
    | .str s => coerceSwitch (getProp schema "type") s
    | _ => value

mutual

/-- The JSON round trip `JSON.parse(JSON.stringify(v))` as a structural
function: object fields whose value is a function or undefined are dropped,
array elements of those shapes become null, nested error objects serialize
as `{}`.  Reference cycles are not representable in the inductive value
type, so the round trip is total here. -/
def jsonRT : JsVal → JsVal
  | .obj l => .obj (jsonRTFields l)
  | .arr l => .arr (jsonRTElems l)
  | .err _ _ => .obj []
  | .func _ => .undef
  | v => v
termination_by structural v => v

/-- Round trip of object fields (function/undefined entries dropped). -/
def jsonRTFields : List (String × JsVal) → List (String × JsVal)
  | [] => []
  | (k, v) :: rest =>
    match v with
    | .func _ => jsonRTFields rest
    | .undef => jsonRTFields rest
    | _ => (k, jsonRT v) :: jsonRTFields rest
termination_by structural l => l

/-- Round trip of array elements (function/undefined become null). -/
def jsonRTElems : List JsVal → List JsVal
  | [] => []
  | v :: rest =>
    match v with
    | .func _ => .null :: jsonRTElems rest
    | .undef => .null :: jsonRTElems rest
    | _ => jsonRT v :: jsonRTElems rest
termination_by structural l => l

end

/-- `clone(obj)` of `part_000`: non-objects are returned as they are
(including error-shaped values, which the defaulting step then detects as a
clone failure); objects are JSON round-tripped. -/
def clone (o : JsVal) : JsVal :=
  match o with
  | .obj l => jsonRT (.obj l)
  | v => v

mutual

/-- A value made only of JSON-expressible content: no functions, no
undefined, no error objects anywhere. -/
def pureJson : JsVal → Bool
  | .undef => false
  | .func _ => false
  | .err _ _ => false
  | .obj l => pureJsonFields l
  | .arr l => pureJsonElems l
  | _ => true
termination_by structural v => v

/-- `pureJson` over object fields. -/
def pureJsonFields : List (String × JsVal) → Bool
  | [] => true
  | (_, v) :: rest => pureJson v && pureJsonFields rest
termination_by structural l => l

/-- `pureJson` over array elements. -/
def pureJsonElems : List JsVal → Bool
  | [] => true
  | v :: rest => pureJson v && pureJsonElems rest
termination_by structural l => l

end

/-- `callValidator(fn, value, options)` of `part_000`: invoke the validator
with the root value as receiver; a thrown exception is caught and converted
to a `badSchema` error whose message is the thrown message prefixed by
`"Validator threw exception "`; a truthy return is wrapped into an error
(its `code` defaulting to `badValue`); a falsy return is success. -/
def callValidator (fn : Fn) (value options : JsVal) : Option JsVal :=
  match Fn.eval fn (getProp options "rootValue") value options with
  | .thrw _ m => some (.err (some "badSchema") ("Validator threw exception " ++ m))
  | .ret r =>
    if jsTruthy r then
      match r with
      | .err c m => some (.err (some (c.getD "badValue")) m)
      | _ => some (.err (some "badValue") (jsToString r))
    else none

/-- Copy an object's bindings one assignment at a time
(`for key in obj1: newObj[key] = obj1[key]`). -/
def copyL (l : List (String × JsVal)) : List (String × JsVal) :=
  l.foldl (fun acc kv => setL acc kv.1 kv.2) []

/-- The override loop of `override(obj1, obj2)`: adopt a key of `obj2`
unconditionally when `obj1` lacks it, and otherwise only when the classified
types agree; the type test always consults `obj1`, never the accumulator. -/
def overrideLoop (base : List (String × JsVal)) (acc : List (String × JsVal)) :
    List (String × JsVal) → List (String × JsVal)
  | [] => acc
  | (k, v) :: rest =>
    if tipe (lookupL base k) = "undefined" then
      overrideLoop base (setL acc k v) rest
    else if tipe (lookupL base k) = tipe v then
      overrideLoop base (setL acc k v) rest
    else
      overrideLoop base acc rest

/-- `override(obj1, obj2)` of `part_000`: type-matching option merge.  When
either argument is not an object the base is returned unchanged. -/
def override (o1 o2 : JsVal) : JsVal :=
  match o1, o2 with
  | .obj b, .obj ov => .obj (overrideLoop b (copyL b) ov)
  | _, _ => o1

/-- Strict-mode sweep of `checkobject`: the first key of the value whose
entry in the field-schema map is falsy fails the node with `badParam`. -/
def objStrict (fields : List (String × JsVal)) : List String → Option JsVal
  | [] => none
  | k :: rest =>
    if jsTruthy (lookupL fields k) then objStrict fields rest
    else some (fail "badParam" (.str k))

/-- Defaulting sweep of `checkobject`: for each field-schema entry with a
defined `default`, when the value's key is undefined, assign a clone of the
default; an error-shaped clone result fails the node with `badSchema`. -/
def objDefaults : List (String × JsVal) → JsVal → Except JsVal JsVal
  | [], v => .ok v
  | (k, f) :: rest, v =>
    if tipe (getProp f "default") ≠ "undefined" ∧ tipe (getProp v k) = "undefined" then
      let c := clone (getProp f "default")
      if tipe c = "error" then
        .error (fail "badSchema" (.str "Invalid default. Could not serialize as JSON."))
      else objDefaults rest (setProp v k c)
    else objDefaults rest v

/-- Required sweep of `checkobject`: the first field-schema entry marked
`required` whose value is undefined or null fails with `missingParam`
naming that key. -/
def objRequired (value : JsVal) : List (String × JsVal) → Option JsVal
  | [] => none
  | (k, f) :: rest =>
    if jsTruthy (getProp f "required") ∧
        (tipe (getProp value k) = "undefined" ∨ tipe (getProp value k) = "null") then
      some (fail "missingParam" (.str k))
    else objRequired value rest

/-- `checkScalar(value, schema, options)` of `part_000`: null and undefined
values succeed immediately; otherwise dispatch on the classified type of
`schema.value` — absent succeeds, a function is a validator, a string is a
pipe-delimited enum, a number or boolean demands strict equality, and any
other shape is a schema-authoring error (`badType` citing `schema.value`). -/
def checkScalar (value schema options : JsVal) : JsVal :=
  match schema with
  | .obj sl =>
    match value with
    | .null => value
    | .undef => value
    | _ =>
      match lookupL sl "value" with
      | .undef => value
      | .func fn =>
        match callValidator fn value options with
        | some e => e
        | none => value
      | .str en =>
        if jsMatch value (.str en) then value
        else fail "badValue"
          (.str (jsToString (getProp options "key") ++ ": " ++ en))
      | .num q =>
        match value with
        | .num q2 =>
          if q2 = q then value
          else fail "badValue"
            (.str (jsToString (getProp options "key") ++ ": " ++ numToString q))
        | _ => fail "badValue"
          (.str (jsToString (getProp options "key") ++ ": " ++ numToString q))
      | .bool b =>
        match value with
        | .bool b2 =>
          if b2 = b then value
          else fail "badValue"
            (.str (jsToString (getProp options "key") ++ ": " ++ (if b then "true" else "false")))
        | _ => fail "badValue"
          (.str (jsToString (getProp options "key") ++ ": " ++ (if b then "true" else "false")))
      | other => fail "badType" other
  | _ => value

theorem sizeOf_lookupL_lt (l : List (String × JsVal)) (k : String) :
    sizeOf (lookupL l k) < 1 + sizeOf l := by
  induction l with
  | nil => simp [lookupL]
  | cons a t ih =>
    obtain ⟨ka, va⟩ := a
    simp only [lookupL]
    split
    · simp
      omega
    · simp
      omega

mutual

/-- `_chk(value, schema, parentOptions)` of `part_000`: the recursive worker.
Non-object schemas succeed vacuously; options are overridden by the schema's
own fields; then required check, coercion, type check, dispatch by the
classified type of the (possibly coerced) value, and the final `validate`
function.  (The in-place update of `options.key` performed by the child
loops is modelled by deriving a fresh options record per child; the only
observer that could tell the difference is a validator inspecting
`options.key` after the loops, which the closed validator syntax cannot.) -/
def _chk (value schema options : JsVal) : JsVal :=
  match schema with
  | .obj sl =>
    let opts := override options (.obj sl)
    if jsTruthy (getProp opts "ignoreRequired") = false ∧
        jsTruthy (lookupL sl "required") = true ∧
        (tipe value = "undefined" ∨ tipe value = "null") then
      fail "missingParam" (getProp opts "key")
    else
      let v1 := coerceType value (.obj sl) opts
      if tipe v1 ≠ "undefined" ∧ tipe (lookupL sl "type") = "string" ∧
          jsMatch (.str (tipe v1)) (lookupL sl "type") = false then
        fail "badType" (.str (tipe v1))
      else
        let v2 :=
          if tipe v1 = "object" then checkobject v1 (.obj sl) opts
          else if tipe v1 = "array" then checkArray v1 (.obj sl) opts
          else checkScalar v1 (.obj sl) opts
        if tipe v2 = "error" then v2
        else
          match lookupL sl "validate" with
          | .func fn =>
            match callValidator fn v2 opts with
            | some e => e
            | none => v2
          | _ => v2
  | _ => value
termination_by (sizeOf schema, 4, 0)

/-- `checkobject(value, schema, options)` of `part_000`: resolve the
field-schema map (nested under `schema.value` when `schema.type === 'object'`
and `schema.value` is an object, else the schema node itself) and run the
field phases. -/
def checkobject (value schema options : JsVal) : JsVal :=
  match schema with
  | .obj sl =>
    match hv : lookupL sl "value" with
    | .obj fl =>
      have hsz : sizeOf fl < sizeOf sl := by
        have h1 := sizeOf_lookupL_lt sl "value"
        rw [hv] at h1
        simp at h1
        omega
      match lookupL sl "type" with
      | .str t =>
        if t = "object" then checkobjectFields value fl options
        else checkobjectFields value sl options
      | _ => checkobjectFields value sl options
    | _ => checkobjectFields value sl options
  | _ => value
termination_by (sizeOf schema, 3, 0)

/-- The four phases of `checkobject` over a resolved field-schema map:
strict sweep, defaulting, required sweep, then recursive descent into the
value's keys. -/
def checkobjectFields (value : JsVal) (fields : List (String × JsVal)) (options : JsVal) : JsVal :=
  match (if jsTruthy (getProp options "strict") then objStrict fields (objKeys value) else none) with
  | some e => e
  | none =>
    match (if jsTruthy (getProp options "ignoreDefaults") then Except.ok value
           else objDefaults fields value) with
    | .error e => e
    | .ok v1 =>
      match (if jsTruthy (getProp options "ignoreRequired") then none
             else objRequired v1 fields) with
      | some e => e
      | none => objRecLoop (objKeys v1) v1 fields options
termination_by (1 + sizeOf fields, 2, 0)

/-- Recursive-descent loop of `checkobject`: for each key of the value whose
field schema is an object, set the traversal key, recurse, write the result
back, and abort on the first error. -/
def objRecLoop : List String → JsVal → List (String × JsVal) → JsVal → JsVal
  | [], v, _, _ => v
  | k :: rest, v, fields, options =>
    match hf : lookupL fields k with
    | .obj fsl =>
      have hsz : sizeOf fsl < sizeOf fields := by
        have h1 := sizeOf_lookupL_lt fields k
        rw [hf] at h1
        simp at h1
        omega
      let o2 := setProp options "key" (.str k)
      let r := _chk (getProp v k) (.obj fsl) o2
      if tipe r = "error" then r
      else objRecLoop rest (setProp v k r) fields o2
    | _ => objRecLoop rest v fields options
termination_by keys v fields options => (1 + sizeOf fields, 1, keys.length)

/-- `checkArray(value, schema, options)` of `part_000`: when `schema.value`
is an object, check the elements with the loop `for (var i = value.length;
i--;)`, i.e. from the last element down to the first, aborting on the first
error met in that order. -/
def checkArray (value schema options : JsVal) : JsVal :=
  match schema with
  | .obj sl =>
    match hv : lookupL sl "value" with
    | .obj svl =>
      have hsz : sizeOf svl < sizeOf sl := by
        have h1 := sizeOf_lookupL_lt sl "value"
        rw [hv] at h1
        simp at h1
        omega
      match value with
      | .arr elems =>
        match arrLoop elems (.obj svl) options elems.length with
        | some e => e
        | none => value
      | _ => value
    | _ => value
  | _ => value
termination_by (sizeOf schema, 3, 0)

/-- Element loop of `checkArray`, counting down: at fuel `i + 1` the element
at index `i` is checked (traversal key set to `i`); element results are not
written back into the array. -/
def arrLoop (elems : List JsVal) (sv options : JsVal) : Nat → Option JsVal
  | 0 => none
  | i + 1 =>
    let r := _chk (elems.getD i .undef) sv (setProp options "key" (.num i))
    if tipe r = "error" then some r else arrLoop elems sv options i
termination_by i => (sizeOf sv, 4, i)

end

/-- Public entry point `chk(value, schema, userOptions)` of `part_000`:
non-object schemas fail immediately; otherwise the fixed default options are
merged with the caller's via `override`, `rootValue`/`rootSchema` are
stamped on, and the worker's result is normalized to null on success. -/
def chk (value schema userOptions : JsVal) : JsVal :=
  match schema with
  | .obj _ =>
    let base : JsVal := .obj [("ignoreDefaults", .bool false), ("ignoreRequired", .bool false),
      ("doNotCoerce", .bool false), ("strict", .bool false), ("log", .bool false)]
    let o1 := override base userOptions
    let o2 := setProp (setProp o1 "rootValue" value) "rootSchema" schema
    let r := _chk value schema o2
    if tipe r = "error" then r else .null
  | _ => fail "badType" (.str "schema object is required")

namespace ChkJs

/-- Options record of `src/chk.js`, the earlier revision: a flat record of
the recognized booleans plus the traversal key and root value (`chk`
normalizes every field before the first call, so a structure is faithful). -/
structure Opts where
  strict : Bool
  ignoreDefaults : Bool
  ignoreRequired : Bool
  doNotCoerce : Bool
  untrusted : Bool
  key : JsVal
  rootValue : JsVal

/-- Error helper of `src/chk.js`: label, colon, message; the code is set
unconditionally. -/
def failJs (code : String) (msg : String) : JsVal :=
  .err (some code) (codeMap code ++ ": " ++ msg)

/-- `checkScalar(value, schema, options)` of `src/chk.js`.  The result lives
in `Except`: `.error` is an exception escaping the function — the validator
call on this revision is not wrapped in try/catch, so a throwing validator
propagates — while ordinary failures are returned as `.ok` error values.
When `options.untrusted` is set, the function-validator branch fails with
`badSchema` before the validator is ever invoked. -/
def checkScalar (value schema : JsVal) (options : Opts) :
    Except (Option String × String) JsVal :=
  match schema with
  | .obj sl =>
    match value with
    | .null => .ok value
    | .undef => .ok value
    | _ =>
      let v1 :=
        match value with
        | .str s => if options.doNotCoerce then value else coerceSwitch (lookupL sl "type") s
        | _ => value
      if jsTruthy (lookupL sl "type") = true ∧ tipe v1 ≠ "undefined" ∧ tipe v1 ≠ "null" ∧
          jsMatch (.str (tipe v1)) (lookupL sl "type") = false then
        .ok (failJs "badType" (jsToString options.key ++ ": " ++ jsToString (lookupL sl "type")))
      else
        match lookupL sl "value" with
        | .undef => .ok v1
        | .func fn =>
          if options.untrusted then
            .ok (failJs "badSchema" "Function validators are not allowed")
          else
            match Fn.eval fn .undef v1 options.key with
            | .thrw c m => .error (c, m)
            | .ret r =>
              if jsTruthy r then
                match r with
                | .err c m => .ok (.err (some (c.getD "badValue")) m)
                | _ => .ok (.err (some "badValue") (jsToString r))
              else .ok v1
        | .str en =>
          if jsMatch v1 (.str en) then .ok v1
          else .ok (failJs "badValue" (jsToString options.key ++ ": " ++ en))
        | .num q =>
          match v1 with
          | .num q2 =>
            if q2 = q then .ok v1
            else .ok (failJs "badValue" (jsToString options.key ++ ": " ++ numToString q))
          | _ => .ok (failJs "badValue" (jsToString options.key ++ ": " ++ numToString q))
        | .bool b =>
          match v1 with
          | .bool b2 =>
            if b2 = b then .ok v1
            else .ok (failJs "badValue"
              (jsToString options.key ++ ": " ++ (if b then "true" else "false")))
          | _ => .ok (failJs "badValue"
            (jsToString options.key ++ ": " ++ (if b then "true" else "false")))
        | other => .ok (failJs "badType" (jsToString other))
  | _ => .ok value

end ChkJs

/-! ## Helper lemmas -/

theorem coerceType_undef (s o : JsVal) : coerceType .undef s o = .undef := by
  simp [coerceType]

theorem checkScalar_undef (s o : JsVal) : checkScalar .undef s o = .undef := by
  cases s <;> simp [checkScalar]

theorem lookupL_setL (l : List (String × JsVal)) (k k' : String) (v : JsVal) :
    lookupL (setL l k v) k' = if k = k' then v else lookupL l k' := by
  induction l with
  | nil => simp [setL, lookupL]
  | cons a t ih =>
    obtain ⟨ka, va⟩ := a
    simp only [setL]
    by_cases hak : ka = k
    · subst hak
      simp only [if_pos rfl, lookupL]
      by_cases h2 : ka = k' <;> simp [h2]
    · simp only [if_neg hak, lookupL]
      by_cases h2 : ka = k'
      · subst h2
        simp [if_neg (fun h : k = ka => hak h.symm)]
      · simp [h2, ih]

theorem lookupL_not_mem (l : List (String × JsVal)) (k : String)
    (h : k ∉ l.map Prod.fst) : lookupL l k = .undef := by
  induction l with
  | nil => rfl
  | cons a t ih =>
    obtain ⟨ka, va⟩ := a
    simp only [List.map_cons, List.mem_cons] at h
    push_neg at h
    simp only [lookupL, if_neg (fun h2 : ka = k => h.1 h2.symm)]
    exact ih h.2

theorem lookupL_copyFold (l : List (String × JsVal)) (acc : List (String × JsVal))
    (k : String) (hl : (l.map Prod.fst).Nodup) :
    lookupL (l.foldl (fun a kv => setL a kv.1 kv.2) acc) k
      = if k ∈ l.map Prod.fst then lookupL l k else lookupL acc k := by
  induction l generalizing acc with
  | nil => simp
  | cons a t ih =>
    obtain ⟨k1, v1⟩ := a
    simp only [List.map_cons, List.nodup_cons] at hl
    simp only [List.foldl_cons]
    rw [ih _ hl.2]
    by_cases hk : k ∈ t.map Prod.fst
    · have hne : k1 ≠ k := fun h => hl.1 (h ▸ hk)
      simp [hk, lookupL, hne]
    · simp only [hk, if_false]
      rw [lookupL_setL]
      by_cases h1 : k1 = k
      · subst h1
        simp [lookupL, hk]
      · have hk' : k ∉ List.map Prod.fst ((k1, v1) :: t) := by
          simp only [List.map_cons, List.mem_cons]
          push_neg
          exact ⟨fun h => h1 h.symm, hk⟩
        simp only [lookupL, if_neg h1, hk, if_false, hk']

theorem lookupL_copyL (l : List (String × JsVal)) (k : String)
    (hl : (l.map Prod.fst).Nodup) :
    lookupL (copyL l) k = lookupL l k := by
  rw [copyL, lookupL_copyFold l [] k hl]
  by_cases h : k ∈ l.map Prod.fst
  · simp [h]
  · simp [h, lookupL, (lookupL_not_mem l k h).symm]

theorem lookupL_overrideLoop (base ov acc : List (String × JsVal)) (k : String)
    (hov : (ov.map Prod.fst).Nodup) :
    lookupL (overrideLoop base acc ov) k =
      if k ∈ ov.map Prod.fst then
        (if tipe (lookupL base k) = "undefined" then lookupL ov k
         else if tipe (lookupL base k) = tipe (lookupL ov k) then lookupL ov k
         else lookupL acc k)
      else lookupL acc k := by
  induction ov generalizing acc with
  | nil => simp [overrideLoop]
  | cons a t ih =>
    obtain ⟨k1, v1⟩ := a
    simp only [List.map_cons, List.nodup_cons] at hov
    by_cases hk1 : k1 = k
    · subst hk1
      have hkt : k1 ∉ t.map Prod.fst := hov.1
      have hmem : k1 ∈ List.map Prod.fst ((k1, v1) :: t) := by simp
      simp only [overrideLoop]
      by_cases hu : tipe (lookupL base k1) = "undefined"
      · rw [if_pos hu, ih _ hov.2]
        simp [hkt, lookupL, lookupL_setL, hu]
      · rw [if_neg hu]
        by_cases hm : tipe (lookupL base k1) = tipe v1
        · rw [if_pos hm, ih _ hov.2]
          simp [hkt, lookupL, lookupL_setL, hu, hm]
        · rw [if_neg hm, ih _ hov.2]
          simp [hkt, lookupL, hu, hm]
    · have hne : ¬ k = k1 := fun h => hk1 h.symm
      have hmem : (k ∈ List.map Prod.fst ((k1, v1) :: t)) ↔ (k ∈ t.map Prod.fst) := by
        simp [hne]
      have hlk : lookupL ((k1, v1) :: t) k = lookupL t k := by
        simp [lookupL, hk1]
      simp only [overrideLoop]
      by_cases hu : tipe (lookupL base k1) = "undefined"
      · rw [if_pos hu, ih _ hov.2]
        simp only [hmem, hlk]
        rw [lookupL_setL]
        simp [hk1]
      · rw [if_neg hu]
        by_cases hm : tipe (lookupL base k1) = tipe v1
        · rw [if_pos hm, ih _ hov.2]
          simp only [hmem, hlk]
          rw [lookupL_setL]
          simp [hk1]
        · rw [if_neg hm, ih _ hov.2]
          simp only [hmem, hlk]

theorem getProp_override (b ov : List (String × JsVal)) (k : String)
    (hb : (b.map Prod.fst).Nodup) (hov : (ov.map Prod.fst).Nodup) :
    getProp (override (.obj b) (.obj ov)) k =
      if k ∈ ov.map Prod.fst then
        (if tipe (lookupL b k) = "undefined" then lookupL ov k
         else if tipe (lookupL b k) = tipe (lookupL ov k) then lookupL ov k
         else lookupL b k)
      else lookupL b k := by
  show lookupL (overrideLoop b (copyL b) ov) k = _
  rw [lookupL_overrideLoop b ov (copyL b) k hov, lookupL_copyL b k hb]

theorem getProp_setProp_ne (o : JsVal) (k k' : String) (v : JsVal) (h : k ≠ k') :
    getProp (setProp o k v) k' = getProp o k' := by
  cases o <;> simp [setProp, getProp]
  rw [lookupL_setL]
  simp [h]

theorem getProp_setProp_self (l : List (String × JsVal)) (k : String) (v : JsVal) :
    getProp (setProp (.obj l) k v) k = v := by
  simp [setProp, getProp, lookupL_setL]

theorem objDefaults_frame (fields : List (String × JsVal)) :
    ∀ (v v' : JsVal) (k : String), objDefaults fields v = .ok v' →
    k ∉ fields.map Prod.fst → getProp v' k = getProp v k := by
  induction fields with
  | nil =>
    intro v v' k h _
    simp only [objDefaults] at h
    cases h
    rfl
  | cons a t ih =>
    intro v v' k h hk
    obtain ⟨k1, f1⟩ := a
    simp only [List.map_cons, List.mem_cons] at hk
    push_neg at hk
    simp only [objDefaults] at h
    split at h
    · split at h
      · cases h
      · rw [ih _ _ _ h hk.2, getProp_setProp_ne _ _ _ _ (fun h2 => hk.1 h2.symm)]
    · exact ih _ _ _ h hk.2

theorem objDefaults_preserves_defined (fields : List (String × JsVal)) :
    ∀ (v v' : JsVal) (k : String), tipe (getProp v k) ≠ "undefined" →
    objDefaults fields v = .ok v' → getProp v' k = getProp v k := by
  induction fields with
  | nil =>
    intro v v' k _ h
    simp only [objDefaults] at h
    cases h
    rfl
  | cons a t ih =>
    intro v v' k hdef h
    obtain ⟨k1, f1⟩ := a
    simp only [objDefaults] at h
    split at h
    · rename_i hg
      have hne : k1 ≠ k := by
        intro he
        subst he
        exact hdef hg.2
      split at h
      · cases h
      · rw [ih _ _ _ (by rwa [getProp_setProp_ne _ _ _ _ hne]) h,
          getProp_setProp_ne _ _ _ _ hne]
    · exact ih _ _ _ hdef h

theorem objDefaults_sets (fields : List (String × JsVal)) :
    ∀ (vl : List (String × JsVal)) (v' : JsVal) (k : String) (f : JsVal),
    (fields.map Prod.fst).Nodup → (k, f) ∈ fields →
    tipe (getProp f "default") ≠ "undefined" →
    tipe (getProp (.obj vl) k) = "undefined" →
    objDefaults fields (.obj vl) = .ok v' →
    getProp v' k = clone (getProp f "default") := by
  induction fields with
  | nil =>
    intro vl v' k f _ hmem
    cases hmem
  | cons a t ih =>
    intro vl v' k f hnd hmem hdef hund h
    obtain ⟨k1, f1⟩ := a
    simp only [List.map_cons, List.nodup_cons] at hnd
    rcases List.mem_cons.mp hmem with hhead | htail
    · have hk : k1 = k := (Prod.mk.injEq _ _ _ _ ▸ hhead.symm).1
      have hf : f1 = f := (Prod.mk.injEq _ _ _ _ ▸ hhead.symm).2
      subst hk
      subst hf
      have hknot : k1 ∉ t.map Prod.fst := hnd.1
      simp only [objDefaults] at h
      rw [if_pos ⟨hdef, hund⟩] at h
      split at h
      · cases h
      · rw [objDefaults_frame t _ _ _ h hknot, getProp_setProp_self]
    · have hkt : k ∈ t.map Prod.fst := List.mem_map.mpr ⟨(k, f), htail, rfl⟩
      have hne : k1 ≠ k := fun he => hnd.1 (he ▸ hkt)
      simp only [objDefaults] at h
      split at h
      · split at h
        · cases h
        · have hund2 : tipe (getProp (.obj (setL vl k1 (clone (getProp f1 "default")))) k)
              = "undefined" := by
            have := getProp_setProp_ne (.obj vl) k1 k (clone (getProp f1 "default")) hne
            simp only [setProp] at this
            rw [this]
            exact hund
          exact ih _ _ _ _ hnd.2 htail hdef hund2 h
      · exact ih _ _ _ _ hnd.2 htail hdef hund h

theorem objRequired_first_fail (pre : List (String × JsVal)) :
    ∀ (post : List (String × JsVal)) (k : String) (f : JsVal) (v : JsVal),
    (∀ p ∈ pre, ¬ (jsTruthy (getProp p.2 "required") = true ∧
       (tipe (getProp v p.1) = "undefined" ∨ tipe (getProp v p.1) = "null"))) →
    jsTruthy (getProp f "required") = true →
    (tipe (getProp v k) = "undefined" ∨ tipe (getProp v k) = "null") →
    objRequired v (pre ++ (k, f) :: post)
      = some (.err (some "missingParam") ("Missing Required Parameter: " ++ k)) := by
  induction pre with
  | nil =>
    intro post k f v _ hreq hund
    simp only [List.nil_append, objRequired, getProp]
    rw [if_pos ⟨hreq, hund⟩]
    simp [fail, codeMap, jsToString]
  | cons a t ih =>
    intro post k f v hpre hreq hund
    obtain ⟨k1, f1⟩ := a
    have h1 := hpre (k1, f1) (List.mem_cons_self _ _)
    simp only [List.cons_append, objRequired, getProp]
    rw [if_neg (by simpa [getProp] using h1)]
    exact ih post k f v (fun p hp => hpre p (List.mem_cons_of_mem _ hp)) hreq hund

theorem tipe_fail (c : String) (m : JsVal) : tipe (fail c m) = "error" := by
  cases m <;> simp [fail, tipe]

theorem coerceSwitch_tag (styp : JsVal) (s : String) :
    tipe (coerceSwitch styp s) = "number" ∨ tipe (coerceSwitch styp s) = "boolean" ∨
    tipe (coerceSwitch styp s) = "string" := by
  have hz : ∀ v1 : JsVal, tipe v1 = "number" ∨ tipe v1 = "string" →
      tipe (zeroFix v1) = "number" ∨ tipe (zeroFix v1) = "string" := by
    intro v1 h1
    cases v1 <;> simp_all [zeroFix, tipe]
    split_ifs <;> simp [tipe]
  unfold coerceSwitch
  split
  · refine Or.imp id (fun h => Or.inr h) (hz _ ?_)
    cases parseFloatJS s <;> cases parseIntJS s <;>
      simp only [apply_ite tipe, tipe] <;>
      (try split_ifs) <;> simp [tipe]
  · simp [tipe]
  · simp [tipe]

theorem coerceType_nullish_id (v s o : JsVal)
    (h : tipe v = "undefined" ∨ tipe v = "null") : coerceType v s o = v := by
  cases v <;> simp_all [coerceType, tipe]

theorem coerceType_not_tag (v s o : JsVal) (t : String)
    (ht : t = "object" ∨ t = "array" ∨ t = "undefined" ∨ t = "null" ∨ t = "error" ∨
      t = "function")
    (h : tipe v ≠ t) : tipe (coerceType v s o) ≠ t := by
  have hts : "string" ≠ t ∧ "number" ≠ t ∧ "boolean" ≠ t := by
    rcases ht with h3 | h3 | h3 | h3 | h3 | h3 <;> subst h3 <;>
      exact ⟨by decide, by decide, by decide⟩
  cases v with
  | str a =>
    simp only [coerceType]
    split
    · simpa [tipe] using hts.1
    · rcases coerceSwitch_tag (getProp s "type") a with h2 | h2 | h2 <;>
        (intro hc
         first
           | exact hts.2.1 (h2.symm.trans hc)
           | exact hts.2.2 (h2.symm.trans hc)
           | exact hts.1 (h2.symm.trans hc))
  | undef => simpa [coerceType] using h
  | null => simpa [coerceType] using h
  | bool b => simpa [coerceType] using h
  | num q => simpa [coerceType] using h
  | arr l => simpa [coerceType] using h
  | obj l => simpa [coerceType] using h
  | func f => simpa [coerceType] using h
  | err c m => simpa [coerceType] using h

theorem checkScalar_dichotomy (sl : List (String × JsVal)) (v : JsVal)
    (hnf : tipe (lookupL sl "value") ≠ "function") :
    (∀ o : JsVal, checkScalar v (.obj sl) o = v) ∨
    (∀ o : JsVal, tipe (checkScalar v (.obj sl) o) = "error") := by
  cases hv : lookupL sl "value" with
  | func f => exact absurd (by rw [hv]; rfl) hnf
  | undef =>
    left
    intro o
    cases v <;> simp [checkScalar, hv]
  | str en =>
    by_cases hm : jsMatch v (.str en) = true
    · left
      intro o
      cases v <;> simp [checkScalar, hv, hm]
    · simp only [Bool.not_eq_true] at hm
      cases v with
      | null => left; intro o; simp [checkScalar]
      | undef => left; intro o; simp [checkScalar]
      | bool b => right; intro o; simp [checkScalar, hv, hm, tipe_fail]
      | num q => right; intro o; simp [checkScalar, hv, hm, tipe_fail]
      | str s2 => right; intro o; simp [checkScalar, hv, hm, tipe_fail]
      | arr l => right; intro o; simp [checkScalar, hv, hm, tipe_fail]
      | obj l => right; intro o; simp [checkScalar, hv, hm, tipe_fail]
      | func f => right; intro o; simp [checkScalar, hv, hm, tipe_fail]
      | err c m => right; intro o; simp [checkScalar, hv, hm, tipe_fail]
  | num q =>
    cases v with
    | null => left; intro o; simp [checkScalar]
    | undef => left; intro o; simp [checkScalar]
    | num q2 =>
      by_cases he : q2 = q
      · left
        intro o
        simp [checkScalar, hv, he]
      · right
        intro o
        simp [checkScalar, hv, he, tipe_fail]
    | bool b => right; intro o; simp [checkScalar, hv, tipe_fail]
    | str s2 => right; intro o; simp [checkScalar, hv, tipe_fail]
    | arr l => right; intro o; simp [checkScalar, hv, tipe_fail]
    | obj l => right; intro o; simp [checkScalar, hv, tipe_fail]
    | func f => right; intro o; simp [checkScalar, hv, tipe_fail]
    | err c m => right; intro o; simp [checkScalar, hv, tipe_fail]
  | bool b =>
    cases v with
    | null => left; intro o; simp [checkScalar]
    | undef => left; intro o; simp [checkScalar]
    | bool b2 =>
      by_cases he : b2 = b
      · left
        intro o
        simp [checkScalar, hv, he]
      · right
        intro o
        simp [checkScalar, hv, he, tipe_fail]
    | num q => right; intro o; simp [checkScalar, hv, tipe_fail]
    | str s2 => right; intro o; simp [checkScalar, hv, tipe_fail]
    | arr l => right; intro o; simp [checkScalar, hv, tipe_fail]
    | obj l => right; intro o; simp [checkScalar, hv, tipe_fail]
    | func f => right; intro o; simp [checkScalar, hv, tipe_fail]
    | err c m => right; intro o; simp [checkScalar, hv, tipe_fail]
  | null =>
    cases v with
    | null => left; intro o; simp [checkScalar]
    | undef => left; intro o; simp [checkScalar]
    | bool b => right; intro o; simp [checkScalar, hv, tipe_fail]
    | num q => right; intro o; simp [checkScalar, hv, tipe_fail]
    | str s2 => right; intro o; simp [checkScalar, hv, tipe_fail]
    | arr l => right; intro o; simp [checkScalar, hv, tipe_fail]
    | obj l => right; intro o; simp [checkScalar, hv, tipe_fail]
    | func f => right; intro o; simp [checkScalar, hv, tipe_fail]
    | err c m => right; intro o; simp [checkScalar, hv, tipe_fail]
  | arr l0 =>
    cases v with
    | null => left; intro o; simp [checkScalar]
    | undef => left; intro o; simp [checkScalar]
    | bool b => right; intro o; simp [checkScalar, hv, tipe_fail]
    | num q => right; intro o; simp [checkScalar, hv, tipe_fail]
    | str s2 => right; intro o; simp [checkScalar, hv, tipe_fail]
    | arr l => right; intro o; simp [checkScalar, hv, tipe_fail]
    | obj l => right; intro o; simp [checkScalar, hv, tipe_fail]
    | func f => right; intro o; simp [checkScalar, hv, tipe_fail]
    | err c m => right; intro o; simp [checkScalar, hv, tipe_fail]
  | obj l0 =>
    cases v with
    | null => left; intro o; simp [checkScalar]
    | undef => left; intro o; simp [checkScalar]
    | bool b => right; intro o; simp [checkScalar, hv, tipe_fail]
    | num q => right; intro o; simp [checkScalar, hv, tipe_fail]
    | str s2 => right; intro o; simp [checkScalar, hv, tipe_fail]
    | arr l => right; intro o; simp [checkScalar, hv, tipe_fail]
    | obj l => right; intro o; simp [checkScalar, hv, tipe_fail]
    | func f => right; intro o; simp [checkScalar, hv, tipe_fail]
    | err c m => right; intro o; simp [checkScalar, hv, tipe_fail]
  | err c0 m0 =>
    cases v with
    | null => left; intro o; simp [checkScalar]
    | undef => left; intro o; simp [checkScalar]
    | bool b => right; intro o; simp [checkScalar, hv, tipe_fail]
    | num q => right; intro o; simp [checkScalar, hv, tipe_fail]
    | str s2 => right; intro o; simp [checkScalar, hv, tipe_fail]
    | arr l => right; intro o; simp [checkScalar, hv, tipe_fail]
    | obj l => right; intro o; simp [checkScalar, hv, tipe_fail]
    | func f => right; intro o; simp [checkScalar, hv, tipe_fail]
    | err c m => right; intro o; simp [checkScalar, hv, tipe_fail]

theorem mem_keys_setL (l : List (String × JsVal)) (k : String) (v : JsVal) (k2 : String) :
    k2 ∈ (setL l k v).map Prod.fst ↔ k2 ∈ l.map Prod.fst ∨ k2 = k := by
  induction l with
  | nil => simp [setL]
  | cons a t ih =>
    obtain ⟨ka, va⟩ := a
    by_cases hak : ka = k
    · subst hak
      simp [setL]
      tauto
    · simp [setL, hak, ih]
      tauto

theorem setL_keys_nodup (l : List (String × JsVal)) (k : String) (v : JsVal)
    (h : (l.map Prod.fst).Nodup) : ((setL l k v).map Prod.fst).Nodup := by
  induction l with
  | nil => simp [setL]
  | cons a t ih =>
    obtain ⟨ka, va⟩ := a
    simp only [List.map_cons, List.nodup_cons] at h
    by_cases hak : ka = k
    · subst hak
      have hset : setL ((ka, va) :: t) ka v = (ka, v) :: t := by simp [setL]
      rw [hset]
      simp only [List.map_cons, List.nodup_cons]
      exact ⟨h.1, h.2⟩
    · simp only [setL, if_neg hak, List.map_cons, List.nodup_cons]
      refine ⟨?_, ih h.2⟩
      rw [mem_keys_setL]
      push_neg
      exact ⟨h.1, hak⟩

theorem overrideLoop_congr (t : String) (ov : List (String × JsVal)) :
    ∀ (b1 b2 a1 a2 : List (String × JsVal)) (k : String), k ≠ t →
    (∀ k2, k2 ≠ t → lookupL b1 k2 = lookupL b2 k2) →
    lookupL a1 k = lookupL a2 k →
    lookupL (overrideLoop b1 a1 ov) k = lookupL (overrideLoop b2 a2 ov) k := by
  induction ov with
  | nil =>
    intro b1 b2 a1 a2 k _ _ hacc
    simpa [overrideLoop] using hacc
  | cons a rest ih =>
    intro b1 b2 a1 a2 k hk hb hacc
    obtain ⟨k1, v1⟩ := a
    by_cases hk1 : k1 = t
    · subst hk1
      have e1 : ∀ (a : List (String × JsVal)), lookupL (setL a k1 v1) k = lookupL a k := by
        intro a
        rw [lookupL_setL, if_neg (fun h : k1 = k => hk h.symm)]
      simp only [overrideLoop]
      split_ifs <;> exact ih b1 b2 _ _ k hk hb (by simp [e1, hacc])
    · have hbb := hb k1 hk1
      simp only [overrideLoop, hbb]
      split_ifs <;>
        exact ih b1 b2 _ _ k hk hb
          (by first
            | exact hacc
            | (rw [lookupL_setL, lookupL_setL]; split_ifs <;> simp [hacc]))

theorem getProp_override_setProp_other (ol sl : List (String × JsVal)) (x : JsVal)
    (k t : String) (hol : (ol.map Prod.fst).Nodup) (hk : k ≠ t) :
    getProp (override (setProp (.obj ol) t x) (.obj sl)) k
      = getProp (override (.obj ol) (.obj sl)) k := by
  simp only [setProp, override, getProp]
  refine overrideLoop_congr t sl (setL ol t x) ol (copyL (setL ol t x)) (copyL ol) k hk ?_ ?_
  · intro k2 hk2
    rw [lookupL_setL, if_neg (fun h : t = k2 => hk2 h.symm)]
  · rw [lookupL_copyL _ _ (setL_keys_nodup ol t x hol), lookupL_copyL _ _ hol, lookupL_setL,
      if_neg (fun h : t = k => hk h.symm)]

theorem coerceType_non_str (v s o : JsVal) (h : tipe v ≠ "string") :
    coerceType v s o = v := by
  cases v <;> simp_all [coerceType]

theorem coerceSwitch_stays (styp : JsVal) (s : String)
    (h1 : styp ≠ .str "number") (h2 : styp ≠ .str "boolean") :
    coerceSwitch styp s = .str s := by
  unfold coerceSwitch
  split
  · exact absurd rfl h1
  · exact absurd rfl h2
  · rfl

theorem _chk_scalar_eval (sl : List (String × JsVal)) (v o : JsVal)
    (hvo : tipe v ≠ "object") (hva : tipe v ≠ "array")
    (hnva : tipe (lookupL sl "validate") ≠ "function") :
    _chk v (.obj sl) o =
      (if jsTruthy (getProp (override o (.obj sl)) "ignoreRequired") = false ∧
          jsTruthy (lookupL sl "required") = true ∧
          (tipe v = "undefined" ∨ tipe v = "null") then
        fail "missingParam" (getProp (override o (.obj sl)) "key")
      else if tipe (coerceType v (.obj sl) (override o (.obj sl))) ≠ "undefined" ∧
          tipe (lookupL sl "type") = "string" ∧
          jsMatch (.str (tipe (coerceType v (.obj sl) (override o (.obj sl)))))
            (lookupL sl "type") = false then
        fail "badType" (.str (tipe (coerceType v (.obj sl) (override o (.obj sl)))))
      else checkScalar (coerceType v (.obj sl) (override o (.obj sl))) (.obj sl)
        (override o (.obj sl))) := by
  simp only [_chk]
  by_cases hR : (jsTruthy (getProp (override o (.obj sl)) "ignoreRequired") = false ∧
      jsTruthy (lookupL sl "required") = true ∧
      (tipe v = "undefined" ∨ tipe v = "null"))
  · rw [if_pos hR, if_pos hR]
  · rw [if_neg hR, if_neg hR]
    by_cases hT : (tipe (coerceType v (.obj sl) (override o (.obj sl))) ≠ "undefined" ∧
        tipe (lookupL sl "type") = "string" ∧
        jsMatch (.str (tipe (coerceType v (.obj sl) (override o (.obj sl)))))
          (lookupL sl "type") = false)
    · rw [if_pos hT, if_pos hT]
    · rw [if_neg hT, if_neg hT]
      have hd1 := coerceType_not_tag v (.obj sl) (override o (.obj sl)) "object"
        (Or.inl rfl) hvo
      have hd2 := coerceType_not_tag v (.obj sl) (override o (.obj sl)) "array"
        (Or.inr (Or.inl rfl)) hva
      rw [if_neg hd1, if_neg hd2]
      cases hval : lookupL sl "validate" <;>
        first
          | exact absurd (by rw [hval]; rfl) hnva
          | simp [hval]

mutual

theorem pureJson_jsonRT : (v : JsVal) → pureJson v = true → jsonRT v = v
  | .null, _ => rfl
  | .bool _, _ => rfl
  | .num _, _ => rfl
  | .str _, _ => rfl
  | .arr l, h => by
    rw [jsonRT, pureJsonElems_jsonRT l (by simpa [pureJson] using h)]
  | .obj l, h => by
    rw [jsonRT, pureJsonFields_jsonRT l (by simpa [pureJson] using h)]
  | .undef, h => by simp [pureJson] at h
  | .func _, h => by simp [pureJson] at h
  | .err _ _, h => by simp [pureJson] at h

theorem pureJsonFields_jsonRT :
    (l : List (String × JsVal)) → pureJsonFields l = true → jsonRTFields l = l
  | [], _ => rfl
  | (k, v) :: rest, h => by
    simp only [pureJsonFields, Bool.and_eq_true] at h
    have hv := pureJson_jsonRT v h.1
    have hr := pureJsonFields_jsonRT rest h.2
    cases v <;> simp_all [jsonRTFields, pureJson]

theorem pureJsonElems_jsonRT :
    (l : List JsVal) → pureJsonElems l = true → jsonRTElems l = l
  | [], _ => rfl
  | v :: rest, h => by
    simp only [pureJsonElems, Bool.and_eq_true] at h
    have hv := pureJson_jsonRT v h.1
    have hr := pureJsonElems_jsonRT rest h.2
    cases v <;> simp_all [jsonRTElems, pureJson]

end

theorem arrLoop_last_error (elems : List JsVal) (sv options : JsVal) (j : ℕ) :
    ∀ n, j < n →
    (∀ i, j < i → i < n →
      tipe (_chk (elems.getD i .undef) sv (setProp options "key" (.num i))) ≠ "error") →
    tipe (_chk (elems.getD j .undef) sv (setProp options "key" (.num j))) = "error" →
    arrLoop elems sv options n
      = some (_chk (elems.getD j .undef) sv (setProp options "key" (.num j))) := by
  intro n
  induction n with
  | zero => omega
  | succ m ih =>
    intro hj hok herr
    by_cases hm : m = j
    · subst hm
      simp only [arrLoop, herr]
      simp
    · have hmj : j < m := by omega
      have hokm := hok m hmj (by omega)
      simp only [arrLoop]
      rw [if_neg hokm]
      exact ih hmj (fun i h1 h2 => hok i h1 (by omega)) herr

/-- Unfolding of the worker at an array value when the schema declares no
usable `type` filter and no `validate` function: the required check cannot
fire (an array is neither undefined nor null), coercion is the identity off
strings, and the dispatch selects `checkArray`, whose result is returned
as-is. -/
theorem _chk_array_eval (sl : List (String × JsVal)) (elems : List JsVal) (o : JsVal)
    (hty : ¬(tipe (lookupL sl "type") = "string" ∧
      jsMatch (.str "array") (lookupL sl "type") = false))
    (hnva : tipe (lookupL sl "validate") ≠ "function") :
    _chk (.arr elems) (.obj sl) o
      = checkArray (.arr elems) (.obj sl) (override o (.obj sl)) := by
  simp only [_chk]
  have hco : coerceType (.arr elems) (.obj sl) (override o (.obj sl)) = .arr elems :=
    coerceType_non_str _ _ _ (by rw [tipe_arr]; decide)
  rw [hco]
  simp only [tipe_arr]
  rw [if_neg (fun h => by simp at h)]
  rw [if_neg (fun h => hty ⟨h.2.1, h.2.2⟩)]
  rw [if_neg (by decide : ¬("array" = "object"))]
  simp only [if_true]
  by_cases he : tipe (checkArray (.arr elems) (.obj sl) (override o (.obj sl))) = "error"
  · rw [if_pos he]
  · rw [if_neg he]
    cases hval : lookupL sl "validate" <;>
      first
        | exact absurd (by rw [hval]; rfl) hnva
        | simp [hval]

/-- `checkArray` on an array value against a schema whose `value` is an
object runs the element loop over the whole length, returning the loop's
error if any and the array otherwise. -/
theorem checkArray_obj (sl svl : List (String × JsVal)) (elems : List JsVal) (o : JsVal)
    (hv : lookupL sl "value" = .obj svl) :
    checkArray (.arr elems) (.obj sl) o =
      (match arrLoop elems (.obj svl) o elems.length with
       | some e => e
       | none => .arr elems) := by
  simp only [checkArray]
  split
  · rename_i svl2 heq
    rw [hv] at heq
    injection heq with h2
    subst h2
    rfl
  · rename_i hx
    exact absurd hv (fun h => hx svl h)

/-! ## Claim theorems -/

/-- Claim C9 (corrected).  Full-call idempotence fails — the source's own
header states "Chk is not idempotent" — because coercions that are not
written back into the caller's structure (top-level scalars, array elements)
are lost: `C9_counterexample` re-checks a successfully checked top-level
`"42"` with `doNotCoerce:true` and gets `badType`.  What does hold, proved
here, is node-level idempotence where the engine's result value is kept:
for a scalar (non-object, non-array) value checked against a schema with no
function validator and no `validate`, if `_chk` succeeds with result `v'`,
then re-running `_chk` on `v'` with `doNotCoerce:true` succeeds and returns
`v'` unchanged — the persisted coercion satisfies the type, enum and
literal rules on its own. -/
theorem C9_recheck_scalar_idempotent (sl ol : List (String × JsVal)) (v v' : JsVal)
    (hol : (ol.map Prod.fst).Nodup)
    (hvo : tipe v ≠ "object") (hva : tipe v ≠ "array")
    (hnf : tipe (lookupL sl "value") ≠ "function")
    (hnva : tipe (lookupL sl "validate") ≠ "function")
    (hrun : _chk v (.obj sl) (.obj ol) = v')
    (hok : tipe v' ≠ "error") :
    _chk v' (.obj sl) (setProp (.obj ol) "doNotCoerce" (.bool true)) = v' := by
  rw [_chk_scalar_eval sl v (.obj ol) hvo hva hnva] at hrun
  by_cases hR : (jsTruthy (getProp (override (.obj ol) (.obj sl)) "ignoreRequired") = false ∧
      jsTruthy (lookupL sl "required") = true ∧ (tipe v = "undefined" ∨ tipe v = "null"))
  · rw [if_pos hR] at hrun
    exact absurd (hrun ▸ tipe_fail _ _) hok
  rw [if_neg hR] at hrun
  by_cases hT : (tipe (coerceType v (.obj sl) (override (.obj ol) (.obj sl))) ≠ "undefined" ∧
      tipe (lookupL sl "type") = "string" ∧
      jsMatch (.str (tipe (coerceType v (.obj sl) (override (.obj ol) (.obj sl)))))
        (lookupL sl "type") = false)
  · rw [if_pos hT] at hrun
    exact absurd (hrun ▸ tipe_fail _ _) hok
  rw [if_neg hT] at hrun
  rcases checkScalar_dichotomy sl (coerceType v (.obj sl) (override (.obj ol) (.obj sl))) hnf
    with hcs | hcs
  swap
  · exact absurd (hrun ▸ hcs (override (.obj ol) (.obj sl))) hok
  have hv' : v' = coerceType v (.obj sl) (override (.obj ol) (.obj sl)) := by
    rw [← hrun, hcs]
  have hvo' : tipe v' ≠ "object" := by
    rw [hv']
    exact coerceType_not_tag _ _ _ _ (Or.inl rfl) hvo
  have hva' : tipe v' ≠ "array" := by
    rw [hv']
    exact coerceType_not_tag _ _ _ _ (Or.inr (Or.inl rfl)) hva
  rw [_chk_scalar_eval sl v' (setProp (.obj ol) "doNotCoerce" (.bool true)) hvo' hva' hnva]
  have hA2 : getProp (override (setProp (.obj ol) "doNotCoerce" (.bool true)) (.obj sl))
      "ignoreRequired" = getProp (override (.obj ol) (.obj sl)) "ignoreRequired" :=
    getProp_override_setProp_other ol sl (.bool true) "ignoreRequired" "doNotCoerce" hol
      (by decide)
  have hNN : (tipe v' = "undefined" ∨ tipe v' = "null") ↔
      (tipe v = "undefined" ∨ tipe v = "null") := by
    constructor
    · intro h
      by_contra hn
      push_neg at hn
      rcases h with h | h
      · exact (coerceType_not_tag v (.obj sl) _ "undefined"
          (Or.inr (Or.inr (Or.inl rfl))) hn.1) (hv' ▸ h)
      · exact (coerceType_not_tag v (.obj sl) _ "null"
          (Or.inr (Or.inr (Or.inr (Or.inl rfl)))) hn.2) (hv' ▸ h)
    · intro h
      rw [hv', coerceType_nullish_id v _ _ h]
      exact h
  have hR2 : ¬ (jsTruthy (getProp (override (setProp (.obj ol) "doNotCoerce" (.bool true))
      (.obj sl)) "ignoreRequired") = false ∧
      jsTruthy (lookupL sl "required") = true ∧
      (tipe v' = "undefined" ∨ tipe v' = "null")) := by
    rw [hA2, hNN]
    exact hR
  rw [if_neg hR2]
  have hco : coerceType v' (.obj sl)
      (override (setProp (.obj ol) "doNotCoerce" (.bool true)) (.obj sl)) = v' := by
    by_cases hstr : tipe v' = "string"
    · have hne1 : lookupL sl "type" ≠ .str "number" := by
        intro heq
        exact hT ⟨by rw [← hv', hstr]; decide, by rw [heq]; rfl,
          by rw [← hv', hstr, heq]; decide⟩
      have hne2 : lookupL sl "type" ≠ .str "boolean" := by
        intro heq
        exact hT ⟨by rw [← hv', hstr]; decide, by rw [heq]; rfl,
          by rw [← hv', hstr, heq]; decide⟩
      cases v' <;>
        first
          | exact absurd hstr (by decide)
          | (simp only [coerceType]
             split <;> first | rfl | exact coerceSwitch_stays _ _ hne1 hne2)
    · exact coerceType_non_str _ _ _ hstr
  rw [hco]
  have hT2 : ¬ (tipe v' ≠ "undefined" ∧ tipe (lookupL sl "type") = "string" ∧
      jsMatch (.str (tipe v')) (lookupL sl "type") = false) := by
    rw [hv']
    exact hT
  rw [if_neg hT2]
  rw [hv']
  exact hcs _

/-- Witness for C9: `"42"` against `{type:'number'}` succeeds with result
`42`, and re-checking that persisted result with `doNotCoerce:true`
returns it unchanged. -/
theorem C9_recheck_scalar_idempotent_witness :
    _chk (.num 42) (.obj [("type", .str "number")])
      (setProp (.obj [("x", .bool false)]) "doNotCoerce" (.bool true)) = .num 42 := by
  have h := C9_recheck_scalar_idempotent [("type", .str "number")] [("x", .bool false)]
    (.str "42") (.num 42) (by decide) (by decide) (by decide) (by decide) (by decide)
    (by simp [_chk, checkobject, checkobjectFields, objRecLoop, checkArray, arrLoop, override,
      overrideLoop, copyL, setL, lookupL, getProp, setProp, objKeys, coerceType, coerceSwitch,
      zeroFix, tipe, jsTruthy, jsMatch, checkScalar, callValidator, fail, codeMap, jsToString,
      numToString, clone, jsonRT, objStrict, objDefaults, objRequired, Fn.eval, parseFloatJS,
      parseIntJS, digitsVal, isWs, parseFloatJS.expDigits, splitPipe, splitPipeAux])
    (by decide)
  exact h

/-- Counterexample for C9 as stated: `chk("42", {type:'number'})` succeeds,
but the top-level scalar coercion is not persisted in the caller's value
(`chk` returns only null), so re-running on the same already-validated value
with `doNotCoerce:true` fails `badType` instead of returning null. -/
theorem C9_counterexample :
    chk (.str "42") (.obj [("type", .str "number")]) .undef = .null ∧
    chk (.str "42") (.obj [("type", .str "number")]) (.obj [("doNotCoerce", .bool true)])
      = .err (some "badType") "Invalid Type: string" ∧
    JsVal.err (some "badType") "Invalid Type: string" ≠ .null := by
  refine ⟨?_, ?_, by decide⟩ <;>
    simp [chk, _chk, checkobject, checkobjectFields, objRecLoop, checkArray, arrLoop, override,
      overrideLoop, copyL, setL, lookupL, getProp, setProp, objKeys, coerceType, coerceSwitch,
      zeroFix, tipe, jsTruthy, jsMatch, checkScalar, callValidator, fail, codeMap, jsToString,
      numToString, clone, jsonRT, objStrict, objDefaults, objRequired, Fn.eval, parseFloatJS,
      parseIntJS, digitsVal, isWs, parseFloatJS.expDigits, splitPipe, splitPipeAux]

/-- Claim C10 (corrected).  For an object-shaped schema with a declared type
string and no required flag, an undefined value passes: the required check
does not fire, coercion and the type check are skipped for undefined, the
scalar rules (enum, literal, `schema.value` validator) are skipped by
`checkScalar`'s early return — PROVIDED the schema carries no `validate`
function: the final-stage `validate` of `_chk` runs even for an undefined
value and can reject it (`C10_counterexample`), so a declared type alone
never rejects an absent value, but a `validate` function can. -/
theorem C10_undefined_value_passes (sl : List (String × JsVal)) (uo : JsVal)
    (hty : tipe (lookupL sl "type") = "string")
    (hreq : jsTruthy (lookupL sl "required") = false)
    (hval : tipe (lookupL sl "validate") ≠ "function") :
    chk .undef (.obj sl) uo = .null := by
  have haux : ∀ o : JsVal, _chk .undef (.obj sl) o = .undef := by
    intro o
    simp only [_chk]
    rw [if_neg (by simp [hreq])]
    rw [coerceType_undef]
    rw [if_neg (by simp [tipe])]
    have hdisp :
        (if tipe JsVal.undef = "object" then checkobject .undef (.obj sl) (override o (.obj sl))
         else if tipe JsVal.undef = "array" then checkArray .undef (.obj sl) (override o (.obj sl))
         else checkScalar .undef (.obj sl) (override o (.obj sl))) = .undef := by
      simp [tipe, checkScalar_undef]
    rw [hdisp]
    rw [if_neg (by simp [tipe])]
    cases hv : lookupL sl "validate"
    case func f => exact absurd (by rw [hv]; rfl) hval
    all_goals simp [hv]
  simp only [chk]
  rw [haux]
  simp [tipe]

/-- Witness for C10: an undefined value against `{type:'number'}` yields
null. -/
theorem C10_undefined_value_passes_witness :
    chk .undef (.obj [("type", .str "number")]) .undef = .null :=
  C10_undefined_value_passes [("type", .str "number")] .undef
    (by decide) (by decide) (by decide)

/-- Counterexample for C10 as stated: a schema with a declared type string
and no required flag whose `validate` function rejects makes `chk` fail on
an undefined value — the claim's unconditional success does not hold. -/
theorem C10_counterexample :
    chk .undef (.obj [("type", .str "number"), ("validate", .func (.ret (.str "bad")))]) .undef
      = .err (some "badValue") "bad" ∧
    JsVal.err (some "badValue") "bad" ≠ .null := by
  refine ⟨?_, by decide⟩
  simp [chk, _chk, checkobject, checkobjectFields, objRecLoop, checkArray, arrLoop, override,
    overrideLoop, copyL, setL, lookupL, getProp, setProp, objKeys, coerceType, coerceSwitch, zeroFix,
    tipe, jsTruthy, jsMatch, checkScalar, callValidator, fail, codeMap, jsToString, numToString,
    clone, jsonRT, objStrict, objDefaults, objRequired, Fn.eval, splitPipe, splitPipeAux]

/-- Claim C2 (confirmed).  In `checkobject`: (a) a field-schema entry with a
defined `default` whose value key is undefined receives a deep clone of the
default; (b) any key whose value is already defined — in particular an
explicit null — is never overridden by defaulting; (c) defaulting runs
before the required sweep, so an absent field with both a (non-null,
cloneable) default and `required:true` is filled and the whole check
succeeds; (d) the required sweep fails `missingParam` naming the first field
whose resolved value is still undefined or null, and an absent required
field that was never present in the value at all fails this way at the entry
point; (e) a default whose clone comes back error-shaped fails `badSchema`
(the claim's non-serializable case; genuine JSON-serialization failures are
reference cycles, which an inductive value cannot express — an error-shaped
default exercises the same branch of the source).  The `ignoreDefaults` and
`ignoreRequired` switches guard the two sweeps in `checkobjectFields`. -/
theorem C2_default_then_required :
    (∀ (fields : List (String × JsVal)) (vl : List (String × JsVal)) (v' : JsVal)
      (k : String) (f : JsVal),
      (fields.map Prod.fst).Nodup → (k, f) ∈ fields →
      tipe (getProp f "default") ≠ "undefined" →
      tipe (getProp (.obj vl) k) = "undefined" →
      objDefaults fields (.obj vl) = .ok v' →
      getProp v' k = clone (getProp f "default")) ∧
    (∀ (fields : List (String × JsVal)) (v v' : JsVal) (k : String),
      tipe (getProp v k) ≠ "undefined" →
      objDefaults fields v = .ok v' →
      getProp v' k = getProp v k) ∧
    (∀ (d : JsVal), (tipe d = "string" ∨ tipe d = "number" ∨ tipe d = "boolean") →
      chk (.obj []) (.obj [("a", .obj [("default", d), ("required", .bool true)])]) .undef
        = .null) ∧
    (∀ (pre post : List (String × JsVal)) (k : String) (f : JsVal) (v : JsVal),
      (∀ p ∈ pre, ¬ (jsTruthy (getProp p.2 "required") = true ∧
         (tipe (getProp v p.1) = "undefined" ∨ tipe (getProp v p.1) = "null"))) →
      jsTruthy (getProp f "required") = true →
      (tipe (getProp v k) = "undefined" ∨ tipe (getProp v k) = "null") →
      objRequired v (pre ++ (k, f) :: post)
        = some (.err (some "missingParam") ("Missing Required Parameter: " ++ k))) ∧
    (chk (.obj []) (.obj [("a", .obj [("required", .bool true)])]) .undef
      = .err (some "missingParam") "Missing Required Parameter: a") ∧
    (∀ (c : Option String) (m : String),
      chk (.obj []) (.obj [("a", .obj [("default", .err c m)])]) .undef
        = .err (some "badSchema")
            "Invalid Schema: Invalid default. Could not serialize as JSON.") := by
  refine ⟨objDefaults_sets, objDefaults_preserves_defined, ?_, objRequired_first_fail, ?_, ?_⟩
  · intro d hd
    cases d <;> simp only [tipe] at hd <;>
      first
      | (exfalso; rcases hd with h | h | h <;> exact absurd h (by decide))
      | (simp [chk, _chk, checkobject, checkobjectFields, objRecLoop, checkArray, arrLoop,
          override, overrideLoop, copyL, setL, lookupL, getProp, setProp, objKeys, coerceType,
          coerceSwitch, zeroFix, tipe, jsTruthy, jsMatch, checkScalar, callValidator, fail, codeMap,
          jsToString, numToString, clone, jsonRT, objStrict, objDefaults, objRequired, Fn.eval,
          splitPipe, splitPipeAux])
  · simp [chk, _chk, checkobject, checkobjectFields, objRecLoop, checkArray, arrLoop, override,
      overrideLoop, copyL, setL, lookupL, getProp, setProp, objKeys, coerceType, coerceSwitch, zeroFix,
      tipe, jsTruthy, jsMatch, checkScalar, callValidator, fail, codeMap, jsToString, numToString,
      clone, jsonRT, objStrict, objDefaults, objRequired, Fn.eval, splitPipe, splitPipeAux]
  · intro c m
    simp [chk, _chk, checkobject, checkobjectFields, objRecLoop, checkArray, arrLoop, override,
      overrideLoop, copyL, setL, lookupL, getProp, setProp, objKeys, coerceType, coerceSwitch, zeroFix,
      tipe, jsTruthy, jsMatch, checkScalar, callValidator, fail, codeMap, jsToString, numToString,
      clone, jsonRT, objStrict, objDefaults, objRequired, Fn.eval, splitPipe, splitPipeAux]

/-- Witness for C2: a default of `5` is deep-cloned into an absent key; an
explicit null stays null; default plus required succeeds on an empty object;
a never-present required field fails `missingParam` naming it; an
error-shaped default fails `badSchema`. -/
theorem C2_default_then_required_witness :
    getProp (JsVal.obj [("a", .num 5)]) "a"
      = clone (getProp (.obj [("default", .num 5)]) "default") ∧
    getProp (JsVal.obj [("a", .null)]) "a" = getProp (JsVal.obj [("a", .null)]) "a" ∧
    chk (.obj []) (.obj [("a", .obj [("default", .num 42), ("required", .bool true)])]) .undef
      = .null ∧
    objRequired (.obj []) ([] ++ ("b", .obj [("required", .bool true)]) :: [])
      = some (.err (some "missingParam") ("Missing Required Parameter: " ++ "b")) ∧
    chk (.obj []) (.obj [("a", .obj [("default", .err none "E")])]) .undef
      = .err (some "badSchema") "Invalid Schema: Invalid default. Could not serialize as JSON." :=
  ⟨C2_default_then_required.1 [("a", .obj [("default", .num 5)])] []
      (.obj [("a", .num 5)]) "a" (.obj [("default", .num 5)])
      (by decide) (List.mem_cons_self _ _) (by decide) (by decide) (by rfl),
   C2_default_then_required.2.1 [("a", .obj [("default", .num 7)])]
      (.obj [("a", .null)]) (.obj [("a", .null)]) "a" (by decide) (by rfl),
   C2_default_then_required.2.2.1 (.num 42) (by decide),
   C2_default_then_required.2.2.2.1 [] [] "b" (.obj [("required", .bool true)])
      (.obj []) (by simp) (by decide) (by decide),
   C2_default_then_required.2.2.2.2.2 none "E"⟩

/-- Claim C4 (corrected).  `checkArray` (`part_000`, `for (var i =
value.length; i--;)`) iterates the elements in REVERSE array order, from the
last index down to 0, setting the traversal key to the element's index, and
aborts on the first failure met in that order: when some element `j` fails
and every element after it (in array order) succeeds, the returned error is
element `j`'s — i.e. the error of the LATEST failing element in array order,
and the elements before it are not evaluated.  The claim's forward order and
earliest-failing-element error are refuted by `C4_counterexample`. -/
theorem C4_array_reverse_short_circuit (sl svl : List (String × JsVal))
    (elems : List JsVal) (options : JsVal) (j : ℕ)
    (hv : lookupL sl "value" = .obj svl)
    (hj : j < elems.length)
    (hok : ∀ i, j < i → i < elems.length →
      tipe (_chk (elems.getD i .undef) (.obj svl) (setProp options "key" (.num i))) ≠ "error")
    (herr : tipe (_chk (elems.getD j .undef) (.obj svl)
      (setProp options "key" (.num j))) = "error") :
    checkArray (.arr elems) (.obj sl) options
      = _chk (elems.getD j .undef) (.obj svl) (setProp options "key" (.num j)) := by
  simp only [checkArray]
  split
  · rename_i svl2 heq
    rw [hv] at heq
    injection heq with h2
    subst h2
    rw [arrLoop_last_error elems (.obj svl) options j elems.length hj hok herr]
  · rename_i hx
    exact absurd hv (fun h => hx svl h)

/-- Witness for C4: in `["p", "a"]` against the enum `"a"`, the later
element succeeds and the earlier one fails, so the loop returns the error of
index 0. -/
theorem C4_array_reverse_short_circuit_witness :
    checkArray (.arr [.str "p", .str "a"])
      (.obj [("value", .obj [("value", .str "a")])]) (.obj [])
      = .err (some "badValue") "Invalid Value: 0: a" := by
  have h := C4_array_reverse_short_circuit [("value", .obj [("value", .str "a")])]
    [("value", .str "a")] [.str "p", .str "a"] (.obj []) 0 rfl (by decide)
    (by
      intro i h1 h2
      simp only [List.length_cons, List.length_nil] at h2
      have hi : i = 1 := by omega
      subst hi
      rw [_chk_scalar_eval [("value", .str "a")] ([JsVal.str "p", JsVal.str "a"].getD 1 .undef)
        (setProp (.obj []) "key" (.num (1 : ℕ))) (by decide) (by decide) (by decide)]
      decide)
    (by
      rw [_chk_scalar_eval [("value", .str "a")] ([JsVal.str "p", JsVal.str "a"].getD 0 .undef)
        (setProp (.obj []) "key" (.num (0 : ℕ))) (by decide) (by decide) (by decide)]
      decide)
  rw [h]
  rw [_chk_scalar_eval [("value", .str "a")] ([JsVal.str "p", JsVal.str "a"].getD 0 .undef)
    (setProp (.obj []) "key" (.num (0 : ℕ))) (by decide) (by decide) (by decide)]
  simp [override, overrideLoop, copyL, setL, lookupL, getProp, setProp, coerceType, coerceSwitch,
    zeroFix, tipe, jsTruthy, jsMatch, checkScalar, callValidator, fail, codeMap, jsToString,
    numToString, Fn.eval, splitPipe, splitPipeAux, tipeTruthy]
  decide

/-- Counterexample for C4 as stated: in `["p", "q"]` against the enum `"a"`
both elements fail; the earliest failing element is index 0, whose error
names key 0, yet `chk` returns the error naming key 1 — the error of the
latest failing element, produced by the reverse loop. -/
theorem C4_counterexample :
    chk (.arr [.str "p", .str "q"]) (.obj [("value", .obj [("value", .str "a")])]) .undef
      = .err (some "badValue") "Invalid Value: 1: a" ∧
    _chk (.str "p") (.obj [("value", .str "a")]) (setProp (.obj []) "key" (.num 0))
      = .err (some "badValue") "Invalid Value: 0: a" ∧
    ("Invalid Value: 1: a" ≠ "Invalid Value: 0: a") := by
  refine ⟨?_, ?_, by decide⟩
  · have hw : _chk (.arr [JsVal.str "p", JsVal.str "q"])
        (.obj [("value", .obj [("value", .str "a")])])
        (.obj [("ignoreDefaults", .bool false), ("ignoreRequired", .bool false),
          ("doNotCoerce", .bool false), ("strict", .bool false), ("log", .bool false),
          ("rootValue", .arr [JsVal.str "p", JsVal.str "q"]),
          ("rootSchema", .obj [("value", .obj [("value", .str "a")])])])
        = .err (some "badValue") "Invalid Value: 1: a" := by
      rw [_chk_array_eval [("value", .obj [("value", .str "a")])]
        [JsVal.str "p", JsVal.str "q"]
        (.obj [("ignoreDefaults", .bool false), ("ignoreRequired", .bool false),
          ("doNotCoerce", .bool false), ("strict", .bool false), ("log", .bool false),
          ("rootValue", .arr [JsVal.str "p", JsVal.str "q"]),
          ("rootSchema", .obj [("value", .obj [("value", .str "a")])])])
        (by decide) (by decide)]
      rw [(by decide : override
        (.obj [("ignoreDefaults", .bool false), ("ignoreRequired", .bool false),
          ("doNotCoerce", .bool false), ("strict", .bool false), ("log", .bool false),
          ("rootValue", .arr [JsVal.str "p", JsVal.str "q"]),
          ("rootSchema", .obj [("value", .obj [("value", .str "a")])])])
        (.obj [("value", .obj [("value", .str "a")])])
        = .obj [("ignoreDefaults", .bool false), ("ignoreRequired", .bool false),
          ("doNotCoerce", .bool false), ("strict", .bool false), ("log", .bool false),
          ("rootValue", .arr [JsVal.str "p", JsVal.str "q"]),
          ("rootSchema", .obj [("value", .obj [("value", .str "a")])]),
          ("value", .obj [("value", .str "a")])])]
      rw [checkArray_obj [("value", .obj [("value", .str "a")])] [("value", .str "a")]
        [JsVal.str "p", JsVal.str "q"]
        (.obj [("ignoreDefaults", .bool false), ("ignoreRequired", .bool false),
          ("doNotCoerce", .bool false), ("strict", .bool false), ("log", .bool false),
          ("rootValue", .arr [JsVal.str "p", JsVal.str "q"]),
          ("rootSchema", .obj [("value", .obj [("value", .str "a")])]),
          ("value", .obj [("value", .str "a")])]) rfl]
      rw [arrLoop_last_error [JsVal.str "p", JsVal.str "q"] (.obj [("value", .str "a")])
        (.obj [("ignoreDefaults", .bool false), ("ignoreRequired", .bool false),
          ("doNotCoerce", .bool false), ("strict", .bool false), ("log", .bool false),
          ("rootValue", .arr [JsVal.str "p", JsVal.str "q"]),
          ("rootSchema", .obj [("value", .obj [("value", .str "a")])]),
          ("value", .obj [("value", .str "a")])])
        1 ([JsVal.str "p", JsVal.str "q"].length) (by decide)
        (by
          intro i hi1 hi2
          simp only [List.length_cons, List.length_nil] at hi2
          omega)
        (by
          rw [_chk_scalar_eval [("value", .str "a")]
            ([JsVal.str "p", JsVal.str "q"].getD 1 .undef)
            (setProp (.obj [("ignoreDefaults", .bool false), ("ignoreRequired", .bool false),
              ("doNotCoerce", .bool false), ("strict", .bool false), ("log", .bool false),
              ("rootValue", .arr [JsVal.str "p", JsVal.str "q"]),
              ("rootSchema", .obj [("value", .obj [("value", .str "a")])]),
              ("value", .obj [("value", .str "a")])]) "key" (.num (1 : ℕ)))
            (by decide) (by decide) (by decide)]
          decide)]
      show _chk ([JsVal.str "p", JsVal.str "q"].getD 1 .undef) (.obj [("value", .str "a")])
        (setProp (.obj [("ignoreDefaults", .bool false), ("ignoreRequired", .bool false),
          ("doNotCoerce", .bool false), ("strict", .bool false), ("log", .bool false),
          ("rootValue", .arr [JsVal.str "p", JsVal.str "q"]),
          ("rootSchema", .obj [("value", .obj [("value", .str "a")])]),
          ("value", .obj [("value", .str "a")])]) "key" (.num (1 : ℕ)))
        = .err (some "badValue") "Invalid Value: 1: a"
      rw [_chk_scalar_eval [("value", .str "a")]
        ([JsVal.str "p", JsVal.str "q"].getD 1 .undef)
        (setProp (.obj [("ignoreDefaults", .bool false), ("ignoreRequired", .bool false),
          ("doNotCoerce", .bool false), ("strict", .bool false), ("log", .bool false),
          ("rootValue", .arr [JsVal.str "p", JsVal.str "q"]),
          ("rootSchema", .obj [("value", .obj [("value", .str "a")])]),
          ("value", .obj [("value", .str "a")])]) "key" (.num (1 : ℕ)))
        (by decide) (by decide) (by decide)]
      simp [override, overrideLoop, copyL, setL, lookupL, getProp, setProp, coerceType,
        coerceSwitch, zeroFix, tipe, jsTruthy, jsMatch, checkScalar, callValidator, fail,
        codeMap, jsToString, numToString, Fn.eval, splitPipe, splitPipeAux, tipeTruthy]
      decide
    simp only [chk]
    rw [(by decide : setProp (setProp (override
        (.obj [("ignoreDefaults", .bool false), ("ignoreRequired", .bool false),
          ("doNotCoerce", .bool false), ("strict", .bool false), ("log", .bool false)])
        .undef) "rootValue" (.arr [JsVal.str "p", JsVal.str "q"]))
        "rootSchema" (.obj [("value", .obj [("value", .str "a")])])
        = .obj [("ignoreDefaults", .bool false), ("ignoreRequired", .bool false),
          ("doNotCoerce", .bool false), ("strict", .bool false), ("log", .bool false),
          ("rootValue", .arr [JsVal.str "p", JsVal.str "q"]),
          ("rootSchema", .obj [("value", .obj [("value", .str "a")])])])]
    rw [hw]
    decide
  · rw [_chk_scalar_eval [("value", .str "a")] (.str "p") (setProp (.obj []) "key" (.num 0))
      (by decide) (by decide) (by decide)]
    simp [override, overrideLoop, copyL, setL, lookupL, getProp, setProp, coerceType,
      coerceSwitch, zeroFix, tipe, jsTruthy, jsMatch, checkScalar, callValidator, fail,
      codeMap, jsToString, numToString, Fn.eval, splitPipe, splitPipeAux, tipeTruthy]
    decide

/-- Claim C6 (confirmed).  `override(base, overrides)` behaves per key as
claimed: a key absent from (classified undefined in) the base is adopted
unconditionally; a key present in both is adopted exactly when the
classified types agree, and otherwise the base value is silently retained;
keys of the base untouched by `overrides` keep their base value.  The
base record is never mutated: the result is assembled in a fresh object
(`copyL`), which in this pure embedding makes base immutability intrinsic —
`override` merely reads `base`. -/
theorem C6_override_type_matching_merge (b ov : List (String × JsVal)) (k : String)
    (hb : (b.map Prod.fst).Nodup) (hov : (ov.map Prod.fst).Nodup) :
    getProp (override (.obj b) (.obj ov)) k =
      if k ∈ ov.map Prod.fst then
        (if tipe (lookupL b k) = "undefined" then lookupL ov k
         else if tipe (lookupL b k) = tipe (lookupL ov k) then lookupL ov k
         else lookupL b k)
      else lookupL b k :=
  getProp_override b ov k hb hov

/-- Witness for C6 on a concrete merge: a type-mismatched override is
retained, a type-matched override is adopted, a key the base lacks is
adopted, and a key the overrides lack keeps the base value. -/
theorem C6_override_type_matching_merge_witness :
    getProp (override (.obj [("a", .num 1), ("b", .bool false), ("x", .str "keep")])
      (.obj [("a", .str "s"), ("b", .bool true), ("c", .num 3)])) "a" = .num 1 ∧
    getProp (override (.obj [("a", .num 1), ("b", .bool false), ("x", .str "keep")])
      (.obj [("a", .str "s"), ("b", .bool true), ("c", .num 3)])) "b" = .bool true ∧
    getProp (override (.obj [("a", .num 1), ("b", .bool false), ("x", .str "keep")])
      (.obj [("a", .str "s"), ("b", .bool true), ("c", .num 3)])) "c" = .num 3 ∧
    getProp (override (.obj [("a", .num 1), ("b", .bool false), ("x", .str "keep")])
      (.obj [("a", .str "s"), ("b", .bool true), ("c", .num 3)])) "x" = .str "keep" := by
  refine ⟨?_, ?_, ?_, ?_⟩ <;>
    (rw [C6_override_type_matching_merge _ _ _ (by decide) (by decide)]; decide)

/-- Claim C3 (corrected).  The numeric coercion of a string value under a
declared `number` type: the float parse wins when its magnitude is strictly
greater than the integer parse's; otherwise the integer parse wins only when
it is truthy (nonzero) — when the integer result is zero or a failed parse
the string is left unchanged, except that the exact literal `"0"` becomes
numeric zero; strings that parse on neither path stay strings.  The spec's
three examples hold at the evaluator: `"42"` under `{type:'number'}` yields
the number `42`, `"0"` yields the number `0`, and `"true"` under
`{type:'boolean'}` yields the boolean `true` via the classifier's truthiness
rule. -/
theorem C3_numeric_coercion :
    (∀ (s : String) (fq : ℚ) (iq : ℤ), parseFloatJS s = some fq → parseIntJS s = some iq →
      |fq| > |(iq : ℚ)| → coerceSwitch (.str "number") s = .num fq) ∧
    (∀ (s : String) (fq : ℚ) (iq : ℤ), parseFloatJS s = some fq → parseIntJS s = some iq →
      ¬ |fq| > |(iq : ℚ)| → iq ≠ 0 → coerceSwitch (.str "number") s = .num (iq : ℚ)) ∧
    (∀ (s : String) (fq : ℚ) (iq : ℤ), parseFloatJS s = some fq → parseIntJS s = some iq →
      ¬ |fq| > |(iq : ℚ)| → iq = 0 → s ≠ "0" → coerceSwitch (.str "number") s = .str s) ∧
    (coerceSwitch (.str "number") "0" = .num 0) ∧
    (∀ (s : String), parseFloatJS s = none → parseIntJS s = none → s ≠ "0" →
      coerceSwitch (.str "number") s = .str s) ∧
    (∀ (s : String), coerceSwitch (.str "boolean") s = .bool (tipeTruthy (.str s))) ∧
    (_chk (.str "42") (.obj [("type", .str "number")]) (.obj []) = .num 42) ∧
    (_chk (.str "0") (.obj [("type", .str "number")]) (.obj []) = .num 0) ∧
    (_chk (.str "true") (.obj [("type", .str "boolean")]) (.obj []) = .bool true) := by
  refine ⟨?_, ?_, ?_, ?_, ?_, ?_, ?_, ?_, ?_⟩
  · intro s fq iq h1 h2 h3
    simp [coerceSwitch, zeroFix, h1, h2, h3]
  · intro s fq iq h1 h2 h3 h4
    simp [coerceSwitch, zeroFix, h1, h2, h3, h4]
  · intro s fq iq h1 h2 h3 h4 h5
    subst h4
    have hf : fq = 0 := by
      simp only [Int.cast_zero, abs_zero, gt_iff_lt, not_lt] at h3
      exact abs_eq_zero.mp (le_antisymm h3 (abs_nonneg fq))
    simp [coerceSwitch, zeroFix, h1, h2, hf, h5]
  · simp [coerceSwitch, zeroFix, parseFloatJS, parseIntJS, digitsVal, isWs, parseFloatJS.expDigits]
  · intro s h1 h2 h3
    simp [coerceSwitch, zeroFix, h1, h2, h3]
  · intro s
    simp [coerceSwitch, zeroFix]
  all_goals
    simp [chk, _chk, checkobject, checkobjectFields, objRecLoop, checkArray, arrLoop, override,
      overrideLoop, copyL, setL, lookupL, getProp, setProp, objKeys, coerceType, coerceSwitch, zeroFix,
      tipe, jsTruthy, jsMatch, checkScalar, callValidator, fail, codeMap, jsToString, numToString,
      clone, jsonRT, objStrict, objDefaults, objRequired, Fn.eval, parseFloatJS, parseIntJS,
      digitsVal, isWs, parseFloatJS.expDigits, splitPipe, splitPipeAux, tipeTruthy]

/-- Witness for C3: the integer-wins branch at `"42"` (float and integer
parses tie in magnitude, the integer is nonzero), the float-wins branch at
`"1e2"`, and the string-stays branch at `"0.5x0"` (hypotheses discharged by
computation). -/
theorem C3_numeric_coercion_witness :
    coerceSwitch (.str "number") "42" = .num 42 ∧
    coerceSwitch (.str "number") "1e2" = .num 100 ∧
    coerceSwitch (.str "number") "0.5" = .num (1 / 2) :=
  ⟨by
    have h := C3_numeric_coercion.2.1 "42" 42 42
      (by simp [parseFloatJS, parseIntJS, digitsVal, isWs, parseFloatJS.expDigits])
      (by simp [parseIntJS, digitsVal, isWs])
      (by simp) (by decide)
    simpa using h,
   by
    have h := C3_numeric_coercion.1 "1e2" 100 1
      (by simp [parseFloatJS, parseIntJS, digitsVal, isWs, parseFloatJS.expDigits]; norm_num)
      (by simp [parseIntJS, digitsVal, isWs])
      (by norm_num)
    simpa using h,
   by
    have h := C3_numeric_coercion.1 "0.5" (1 / 2) 0
      (by simp [parseFloatJS, parseIntJS, digitsVal, isWs, parseFloatJS.expDigits]; norm_num)
      (by simp [parseIntJS, digitsVal, isWs])
      (by norm_num)
    simpa using h⟩

/-- Counterexample for C3 as stated: at `"0.0"` both parses yield zero, so
the float's magnitude is not strictly greater and the claim's "the integer
result wins" dictates numeric `0`; the code instead leaves the string
`"0.0"` unchanged (the integer result is falsy and the literal is not
`"0"`). -/
theorem C3_counterexample :
    coerceType (.str "0.0") (.obj [("type", .str "number")]) (.obj []) = .str "0.0" ∧
    JsVal.str "0.0" ≠ .num 0 := by
  constructor
  · simp [coerceType, coerceSwitch, zeroFix, getProp, lookupL, jsTruthy, parseFloatJS, parseIntJS,
      digitsVal, isWs, parseFloatJS.expDigits]
  · decide

/-- Claim C7 (corrected).  The engine has no assignment into schema fields,
but the claimed deep-cloning holds only for object-classified defaults:
`clone` tests `tipe.object`, which is false for arrays, so an array default
is handed to the value as-is — in JavaScript, by reference into the schema —
and the recursive descent can then write into the schema's own default
through that alias (`chk({}, {a: {type: 'array', default: [{}], value:
{b: {default: 5}}}})` returns null yet leaves `schema.a.default` mutated to
`[{b: 5}]`), refuting "structurally unchanged" and "cloned copies rather
than references".  Proved here, the surviving half: object defaults are the
JSON round trip (structural copies, the identity on JSON-pure content),
every non-object value passes `clone` through unchanged, and the defaulting
sweep inserts exactly `clone(default)`.  The aliasing itself is not
expressible in a pure value embedding; its value-level trace is the
counterexample's function element surviving insertion where a JSON clone
would serialize it to null. -/
theorem C7_defaults_cloned_only_for_objects :
    (∀ (l : List (String × JsVal)), clone (.obj l) = jsonRT (.obj l)) ∧
    (∀ (o : JsVal), tipe o ≠ "object" → clone o = o) ∧
    (∀ (v : JsVal), pureJson v = true → clone v = v) ∧
    (∀ (fields : List (String × JsVal)) (vl : List (String × JsVal)) (v' : JsVal)
      (k : String) (f : JsVal),
      (fields.map Prod.fst).Nodup → (k, f) ∈ fields →
      tipe (getProp f "default") ≠ "undefined" →
      tipe (getProp (.obj vl) k) = "undefined" →
      objDefaults fields (.obj vl) = .ok v' →
      getProp v' k = clone (getProp f "default")) := by
  refine ⟨fun l => rfl, ?_, ?_, objDefaults_sets⟩
  · intro o ho
    cases o <;> simp_all [clone, tipe]
  · intro v hp
    cases v <;> simp_all [clone, pureJson]
    exact congrArg JsVal.obj (pureJsonFields_jsonRT _ hp)

/-- Witness for C7: an array default passes `clone` through unchanged (the
reference hand-over), a nested JSON-pure object default round-trips to
itself, and the defaulting step inserts exactly the clone of the schema's
default. -/
theorem C7_defaults_cloned_only_for_objects_witness :
    clone (.arr [.func (.ret .null)]) = .arr [.func (.ret .null)] ∧
    clone (.obj [("x", .num 1), ("y", .arr [.str "s", .null])])
      = .obj [("x", .num 1), ("y", .arr [.str "s", .null])] ∧
    getProp (JsVal.obj [("b", .str "d")]) "b"
      = clone (getProp (.obj [("default", .str "d")]) "default") :=
  ⟨C7_defaults_cloned_only_for_objects.2.1 (.arr [.func (.ret .null)]) (by decide),
   C7_defaults_cloned_only_for_objects.2.2.1
      (.obj [("x", .num 1), ("y", .arr [.str "s", .null])]) (by decide),
   C7_defaults_cloned_only_for_objects.2.2.2 [("b", .obj [("default", .str "d")])] []
      (.obj [("b", .str "d")]) "b" (.obj [("default", .str "d")])
      (by decide) (List.mem_cons_self _ _) (by decide) (by decide) (by rfl)⟩

/-- Counterexample for C7 as stated: defaults are NOT deep-cloned when the
default is an array — `clone` passes it through untouched (in the source,
the same reference that lives in the schema), visibly so at the value level
because a function element survives the insertion, whereas the JSON
round trip that "deep-cloned" promises would serialize it to null.  The
defaulting sweep therefore stores the schema's own array, the alias through
which nested defaulting writes back into the schema. -/
theorem C7_counterexample :
    clone (.arr [.func (.ret .null)]) = .arr [.func (.ret .null)] ∧
    jsonRT (.arr [.func (.ret .null)]) = .arr [.null] ∧
    JsVal.arr [.func (.ret .null)] ≠ .arr [.null] ∧
    objDefaults [("a", .obj [("default", .arr [.func (.ret .null)])])] (.obj [])
      = .ok (.obj [("a", .arr [.func (.ret .null)])]) :=
  ⟨rfl, rfl, by decide, rfl⟩

/-- Claim C8 (corrected).  When the schema argument is not object-shaped,
`chk` fails immediately; but the error's code is `badType` (not a
badSchema-class code) and its message is the label-prefixed string
`"Invalid Type: schema object is required"`. -/
theorem C8_nonobject_schema_fails (value userOptions schema : JsVal)
    (hs : tipe schema ≠ "object") :
    chk value schema userOptions
      = .err (some "badType") "Invalid Type: schema object is required" := by
  cases schema <;>
    simp [chk, fail, codeMap, jsToString, tipe] at hs ⊢

/-- Witness for C8: a numeric schema argument is rejected with `badType`. -/
theorem C8_nonobject_schema_fails_witness :
    chk (.num 1) (.num 5) .undef
      = .err (some "badType") "Invalid Type: schema object is required" :=
  C8_nonobject_schema_fails (.num 1) .undef (.num 5) (by decide)

/-- Counterexample for C8 as stated: at `schema = 5` the error returned by
`chk` carries code `badType`, not a badSchema-class code, and its message is
`"Invalid Type: schema object is required"`, not the bare
`"schema object is required"`. -/
theorem C8_counterexample :
    chk (.num 1) (.num 5) .undef
      = .err (some "badType") "Invalid Type: schema object is required" ∧
    (some "badType" ≠ some "badSchema") ∧
    ("Invalid Type: schema object is required" ≠ "schema object is required") := by
  refine ⟨?_, by decide, by decide⟩
  simp [chk, fail, codeMap, jsToString]

/-- Claim C1 (corrected).  In `part_000` every validator invocation passes
through `callValidator`, which catches a thrown exception and converts it to
an error value with code `badSchema` whose message is the thrown message
prefixed by `"Validator threw exception "` — without a colon, unlike the
spec's `"Validator threw exception: "`.  In the earlier revision `src/chk.js`
the validator call in `checkScalar` is not wrapped at all and the exception
escapes as an exception. -/
theorem C1_validator_exception_downgraded :
    (∀ (fn : Fn) (value options : JsVal) (c : Option String) (m : String),
      Fn.eval fn (getProp options "rootValue") value options = .thrw c m →
      callValidator fn value options
        = some (.err (some "badSchema") ("Validator threw exception " ++ m))) ∧
    (∀ (c : Option String) (m : String) (sl : List (String × JsVal)) (v : JsVal)
      (o : ChkJs.Opts),
      lookupL sl "value" = .func (.thrw c m) →
      o.untrusted = false →
      tipe v ≠ "null" → tipe v ≠ "undefined" → tipe v ≠ "string" →
      jsTruthy (lookupL sl "type") = false →
      ChkJs.checkScalar v (.obj sl) o = .error (c, m)) := by
  constructor
  · intro fn value options c m h
    simp [callValidator, h]
  · intro c m sl v o hval hu hn hun hstr hty
    cases v <;> simp_all [ChkJs.checkScalar, tipe, Fn.eval, hval, hu, hty]

/-- Witness for C1: a validator throwing `"boom"` is downgraded by
`callValidator`, and escapes the `chk.js` `checkScalar`. -/
theorem C1_validator_exception_downgraded_witness :
    callValidator (.thrw none "boom") (.str "x") (.obj [])
      = some (.err (some "badSchema") "Validator threw exception boom") ∧
    ChkJs.checkScalar (.num 1) (.obj [("value", .func (.thrw (some "c") "m"))])
      ⟨false, false, false, false, false, .undef, .undef⟩ = .error (some "c", "m") :=
  ⟨C1_validator_exception_downgraded.1 (.thrw none "boom") (.str "x") (.obj []) none "boom" rfl,
   C1_validator_exception_downgraded.2 (some "c") "m" [("value", .func (.thrw (some "c") "m"))]
     (.num 1) ⟨false, false, false, false, false, .undef, .undef⟩
     (by decide) rfl (by decide) (by decide) (by decide) (by decide)⟩

/-- Counterexample for C1 as stated: a validator throwing `"boom"` makes
`chk` return a `badSchema` error, but its message is
`"Validator threw exception boom"`, which does not carry the claimed prefix
`"Validator threw exception: "`. -/
theorem C1_counterexample :
    chk (.str "x") (.obj [("value", .func (.thrw none "boom"))]) .undef
      = .err (some "badSchema") "Validator threw exception boom" ∧
    ("Validator threw exception boom" ≠ "Validator threw exception: " ++ "boom") := by
  refine ⟨?_, by decide⟩
  simp [chk, _chk, checkobject, checkobjectFields, objRecLoop, checkArray, arrLoop, override,
    overrideLoop, copyL, setL, lookupL, getProp, setProp, objKeys, coerceType, coerceSwitch, zeroFix,
    tipe, jsTruthy, jsMatch, checkScalar, callValidator, fail, codeMap, jsToString, numToString,
    clone, jsonRT, objStrict, objDefaults, objRequired, Fn.eval, parseFloatJS, parseIntJS,
    digitsVal, isWs, parseFloatJS.expDigits, splitPipe, splitPipeAux]

/-- Claim C5 (corrected).  In `src/chk.js`, `untrusted` disables function
validators: the node fails `badSchema` with the fixed message for every
validator, which is therefore never invoked.  In `part_000` the option is
never consulted: the validator is invoked no matter what the options record
holds — here exhibited by a throwing validator whose converted error is
returned. -/
theorem C5_untrusted_disables_validators :
    (∀ (fn : Fn) (v : JsVal) (sl : List (String × JsVal)) (o : ChkJs.Opts),
      o.untrusted = true →
      lookupL sl "value" = .func fn →
      tipe v ≠ "null" → tipe v ≠ "undefined" → tipe v ≠ "string" →
      jsTruthy (lookupL sl "type") = false →
      ChkJs.checkScalar v (.obj sl) o
        = .ok (ChkJs.failJs "badSchema" "Function validators are not allowed")) ∧
    (∀ (c : Option String) (m : String) (v options : JsVal) (sl : List (String × JsVal)),
      lookupL sl "value" = .func (.thrw c m) →
      tipe v ≠ "null" → tipe v ≠ "undefined" →
      checkScalar v (.obj sl) options
        = .err (some "badSchema") ("Validator threw exception " ++ m)) := by
  constructor
  · intro fn v sl o hu hval hn hun hstr hty
    cases v <;> simp_all [ChkJs.checkScalar, tipe, hval, hu, hty]
  · intro c m v options sl hval hn hun
    cases v <;> simp_all [checkScalar, tipe, hval, callValidator, Fn.eval]

/-- Witness for C5: with `untrusted`, `chk.js` fails `badSchema` without
invoking the validator; `part_000` invokes it even with `untrusted` set in
the options record. -/
theorem C5_untrusted_disables_validators_witness :
    ChkJs.checkScalar (.num 1) (.obj [("value", .func (.thrw none "boom"))])
      ⟨false, false, false, false, true, .undef, .undef⟩
      = .ok (ChkJs.failJs "badSchema" "Function validators are not allowed") ∧
    checkScalar (.num 1) (.obj [("value", .func (.thrw none "boom"))])
      (.obj [("untrusted", .bool true)])
      = .err (some "badSchema") "Validator threw exception boom" :=
  ⟨C5_untrusted_disables_validators.1 (.thrw none "boom") (.num 1)
      [("value", .func (.thrw none "boom"))]
      ⟨false, false, false, false, true, .undef, .undef⟩
      rfl (by decide) (by decide) (by decide) (by decide) (by decide),
   C5_untrusted_disables_validators.2 none "boom" (.num 1)
      (.obj [("untrusted", .bool true)]) [("value", .func (.thrw none "boom"))]
      (by decide) (by decide) (by decide)⟩

/-- Counterexample for C5 as stated: under `untrusted:true` the `part_000`
engine still invokes the validator — a validator returning the truthy string
`"E1"` surfaces as a `badValue` error carrying that string, so the node does
not fail with `badSchema` and the validator was evidently invoked. -/
theorem C5_counterexample :
    chk (.str "x") (.obj [("value", .func (.ret (.str "E1")))])
      (.obj [("untrusted", .bool true)])
      = .err (some "badValue") "E1" ∧
    (some "badValue" ≠ some "badSchema") := by
  refine ⟨?_, by decide⟩
  simp [chk, _chk, checkobject, checkobjectFields, objRecLoop, checkArray, arrLoop, override,
    overrideLoop, copyL, setL, lookupL, getProp, setProp, objKeys, coerceType, coerceSwitch, zeroFix,
    tipe, jsTruthy, jsMatch, checkScalar, callValidator, fail, codeMap, jsToString, numToString,
    clone, jsonRT, objStrict, objDefaults, objRequired, Fn.eval, parseFloatJS, parseIntJS,
    digitsVal, isWs, parseFloatJS.expDigits, splitPipe, splitPipeAux]

end Chk
